import Mathlib

/-
  Verification development for the ai_gateway repository.

  The Go sources are shallowly embedded: Go `interface` values decoded from
  JSON are modelled by the inductive `JVal`; Go maps of type
  map[string]interface... become association lists inside `JVal.obj`;
  fallible code paths, and code paths on which the Go original would panic
  via an unchecked type assertion, return `Option`/`Except`.  Machine
  integers in the claims are token counts and list indices, far from any
  overflow, and are modelled by `Int`/`Nat`.  Emitted SSE events, which the
  Go code produces as `json.Marshal`ed maps, are modelled as the structured
  `JVal` objects being marshalled (field order follows the Go composite
  literal; JSON key order is immaterial to every claim).  Calls on the
  ambient clock (time.Now) are modelled by explicit numeric parameters.
-/

namespace AIGateway

/-- Model of a decoded JSON value (a Go `interface` value produced by
encoding/json): null, booleans, numbers, strings, arrays and objects.
Objects are association lists in key order. -/
inductive JVal where
  | null : JVal
  | bool : Bool → JVal
  | num : Int → JVal
  | str : String → JVal
  | arr : List JVal → JVal
  | obj : List (String × JVal) → JVal
deriving Repr, Inhabited

/-- Lookup of a key in an object field list (first match, as in a Go map
whose keys are distinct). -/
def lookupField : List (String × JVal) → String → Option JVal
  | [], _ => none
  | (k', v) :: rest, k => if k' = k then some v else lookupField rest k

/-- Lookup of a key in a JSON object; `none` on non-objects (a Go nil-map
read yielding the zero value). -/
def JVal.lookup : JVal → String → Option JVal
  | .obj fs, k => lookupField fs k
  | _, _ => none

/-- Model of the Go helper getString: the value at the key when it is a
string, otherwise the empty string. -/
def jGetString (m : JVal) (k : String) : String :=
  match m.lookup k with
  | some (.str s) => s
  | _ => ""

/-- Model of the Go helper getInt: the numeric value at the key, otherwise
zero (encoding/json decodes JSON numbers to float64; the fields involved
here are integral token counts). -/
def jGetInt (m : JVal) (k : String) : Int :=
  match m.lookup k with
  | some (.num n) => n
  | _ => 0

/-- Model of the checked Go type assertion `m[k].(map[string]interface...)`:
the object value at the key, if it is an object. -/
def jGetMap (m : JVal) (k : String) : Option JVal :=
  match m.lookup k with
  | some (.obj fs) => some (.obj fs)
  | _ => none

/-- Model of the Go pattern `x, _ := m[k].(map...)` followed by nil-map
reads: the object at the key, or an empty object when absent/non-object. -/
def jGetMapD (m : JVal) (k : String) : JVal :=
  match m.lookup k with
  | some (.obj fs) => .obj fs
  | _ => .obj []

/-- Model of the Go helper getTextContent over decoded JSON content: a
plain string is returned as is, an array of parts contributes the text of
its "text"-typed object parts in order, anything else yields "". -/
def getTextContent : JVal → String
  | .str s => s
  | .arr parts =>
      parts.foldl
        (fun acc part =>
          match part with
          | .obj fs =>
              match lookupField fs "type" with
              | some (.str ty) =>
                  if ty = "text" then
                    match lookupField fs "text" with
                    | some (.str t) => acc ++ t
                    | _ => acc
                  else acc
              | _ => acc
          | _ => acc)
        ""
  | _ => ""

/-! Model of the encoding/json library: a small executable JSON parser
(`jsonParse`, the model of json.Unmarshal into an interface value) and
serializer (`jsonStringify`, the model of json.Marshal).  The parser covers
the JSON fragment exercised by the gateway's tool-call arguments: integral
numbers, the simple string escapes, arrays and objects.  The serializer
keeps the field order of the value (Go sorts map keys; no claim compares a
serialized string against one produced with a different field order). -/

/-- Left brace character (written numerically). -/
def jLBrace : Char := Char.ofNat 123

/-- Right brace character (written numerically). -/
def jRBrace : Char := Char.ofNat 125

/-- Drop leading JSON whitespace. -/
def skipWs : List Char → List Char
  | [] => []
  | c :: rest =>
      if c = ' ' ∨ c = '\t' ∨ c = '\n' ∨ c = '\r' then skipWs rest else c :: rest

/-- Parse the remainder of a JSON string literal (after the opening quote),
returning the content and the rest of the input. -/
def parseStringChars (fuel : Nat) (cs : List Char) : Option (String × List Char) :=
  match fuel, cs with
  | 0, _ => none
  | _ + 1, [] => none
  | f + 1, c :: rest =>
      if c = '\"' then some ("", rest)
      else if c = '\\' then
        match rest with
        | [] => none
        | e :: rest' =>
            let ec : Option Char :=
              if e = '\"' then some '\"'
              else if e = '\\' then some '\\'
              else if e = '/' then some '/'
              else if e = 'n' then some '\n'
              else if e = 't' then some '\t'
              else if e = 'r' then some '\r'
              else none
            match ec with
            | none => none
            | some ch =>
                match parseStringChars f rest' with
                | some (s, rem) => some (String.mk (ch :: s.data), rem)
                | none => none
      else
        match parseStringChars f rest with
        | some (s, rem) => some (String.mk (c :: s.data), rem)
        | none => none

/-- Split a leading run of decimal digits from the input. -/
def takeDigits : List Char → List Char × List Char
  | [] => ([], [])
  | c :: rest =>
      if c.isDigit then
        let (ds, rem) := takeDigits rest
        (c :: ds, rem)
      else ([], c :: rest)

/-- Value of a digit run. -/
def digitsToNat (ds : List Char) : Nat :=
  ds.foldl (fun acc c => acc * 10 + (c.toNat - 48)) 0

/-- Finish a number: fractional and exponent forms are outside the modelled
fragment and are rejected. -/
def numTail (n : Int) : List Char → Option (JVal × List Char)
  | [] => some (.num n, [])
  | c :: rest =>
      if c = '.' ∨ c = 'e' ∨ c = 'E' then none else some (.num n, c :: rest)

mutual

/-- Parse one JSON value. -/
def parseVal (fuel : Nat) (cs : List Char) : Option (JVal × List Char) :=
  match fuel with
  | 0 => none
  | f + 1 =>
      match skipWs cs with
      | [] => none
      | 'n' :: 'u' :: 'l' :: 'l' :: rest => some (.null, rest)
      | 't' :: 'r' :: 'u' :: 'e' :: rest => some (.bool true, rest)
      | 'f' :: 'a' :: 'l' :: 's' :: 'e' :: rest => some (.bool false, rest)
      | '\"' :: rest =>
          (match parseStringChars (rest.length + 1) rest with
           | some (s, rem) => some (.str s, rem)
           | none => none)
      | '[' :: rest =>
          (match skipWs rest with
           | ']' :: rem => some (.arr [], rem)
           | _ =>
               match parseElems f rest with
               | some (xs, rem) => some (.arr xs, rem)
               | none => none)
      | c :: rest =>
          if c = jLBrace then
            match skipWs rest with
            | [] => none
            | r :: rem =>
                if r = jRBrace then some (.obj [], rem)
                else
                  match parseMembers f rest with
                  | some (fs, rem') => some (.obj fs, rem')
                  | none => none
          else if c = '-' then
            match takeDigits rest with
            | ([], _) => none
            | (ds, rem) => numTail (-(Int.ofNat (digitsToNat ds))) rem
          else if c.isDigit then
            match takeDigits (c :: rest) with
            | ([], _) => none
            | (ds, rem) => numTail (Int.ofNat (digitsToNat ds)) rem
          else none

/-- Parse the comma-separated elements of a non-empty array, consuming the
closing bracket. -/
def parseElems (fuel : Nat) (cs : List Char) : Option (List JVal × List Char) :=
  match fuel with
  | 0 => none
  | f + 1 =>
      match parseVal f cs with
      | none => none
      | some (v, rem) =>
          match skipWs rem with
          | ',' :: rem' =>
              (match parseElems f rem' with
               | some (vs, rem'') => some (v :: vs, rem'')
               | none => none)
          | ']' :: rem' => some ([v], rem')
          | _ => none

/-- Parse the members of a non-empty object, consuming the closing brace. -/
def parseMembers (fuel : Nat) (cs : List Char) : Option (List (String × JVal) × List Char) :=
  match fuel with
  | 0 => none
  | f + 1 =>
      match skipWs cs with
      | '\"' :: rest =>
          (match parseStringChars (rest.length + 1) rest with
           | none => none
           | some (k, rem) =>
               match skipWs rem with
               | ':' :: rem' =>
                   (match parseVal f rem' with
                    | none => none
                    | some (v, rem'') =>
                        match skipWs rem'' with
                        | [] => none
                        | ',' :: rem3 =>
                            (match parseMembers f rem3 with
                             | some (fs, rem4) => some ((k, v) :: fs, rem4)
                             | none => none)
                        | c :: rem3 =>
                            if c = jRBrace then some ([(k, v)], rem3) else none)
               | _ => none)
      | _ => none

end

/-- Model of json.Unmarshal of a whole input into an interface value:
parse one value and require only whitespace to remain. -/
def jsonParse (s : String) : Option JVal :=
  match parseVal (s.length + 1) s.data with
  | some (v, rest) => if skipWs rest = [] then some v else none
  | none => none

/-- Escape the quote and backslash characters of a string body. -/
def jsonQuoteChars : List Char → String
  | [] => ""
  | c :: rest =>
      (if c = '\"' then "\\\"" else if c = '\\' then "\\\\" else String.singleton c)
        ++ jsonQuoteChars rest

/-- A JSON string literal for the given content. -/
def jsonQuote (s : String) : String := "\"" ++ jsonQuoteChars s.data ++ "\""

mutual

/-- Model of json.Marshal on a decoded value. -/
def jsonStringify : JVal → String
  | .null => "null"
  | .bool b => cond b "true" "false"
  | .num n => toString n
  | .str s => jsonQuote s
  | .arr xs => "[" ++ jsonStringifyElems xs ++ "]"
  | .obj fs => String.singleton jLBrace ++ jsonStringifyFields fs ++ String.singleton jRBrace

/-- Serialize array elements, comma separated. -/
def jsonStringifyElems : List JVal → String
  | [] => ""
  | [x] => jsonStringify x
  | x :: y :: rest => jsonStringify x ++ "," ++ jsonStringifyElems (y :: rest)

/-- Serialize object members, comma separated. -/
def jsonStringifyFields : List (String × JVal) → String
  | [] => ""
  | [(k, v)] => jsonQuote k ++ ":" ++ jsonStringify v
  | (k, v) :: f :: rest =>
      jsonQuote k ++ ":" ++ jsonStringify v ++ "," ++ jsonStringifyFields (f :: rest)

end

/-! Embedding of converters.OpenAIStreamToAnthropicStream and its state
record OpenAIToAnthropicStreamState (internal/converters, the stream
machine that rewrites OpenAI Chat chunks into Anthropic Messages events).
Inputs are the decoded chunk objects; outputs are the event objects the Go
code marshals.  The Go code performs one unchecked type assertion,
`choices[0].(map[string]interface...)`; a chunk on which it would panic
makes the embedded step return `none`. -/

/-- Model of converters.mapFinishReason. -/
def mapFinishReason (finishReason : String) : String :=
  match finishReason with
  | "stop" => "end_turn"
  | "length" => "max_tokens"
  | "tool_calls" => "tool_use"
  | "" => "end_turn"
  | other => other

/-- Model of converters.OpenAIToAnthropicStreamState. -/
structure OAState where
  contentBlockIndex : Nat
  contentBlockStarted : Bool
  currentBlockType : String
  finishReason : String
  finished : Bool
  startSent : Bool
deriving Repr, DecidableEq

/-- Model of converters.NewOpenAIToAnthropicStreamState. -/
def initOAState : OAState := ⟨0, false, "", "", false, false⟩

/-- The message_start event object built by the machine. -/
def messageStartEvent (messageID modelName : String) (inputTokens : Int) : JVal :=
  .obj [("type", .str "message_start"),
        ("message", .obj
          [("id", .str messageID),
           ("type", .str "message"),
           ("role", .str "assistant"),
           ("content", .arr []),
           ("model", .str modelName),
           ("stop_reason", .null),
           ("usage", .obj [("input_tokens", .num inputTokens),
                           ("output_tokens", .num 0)])])]

/-- The content_block_stop event object. -/
def contentBlockStopEvent (index : Nat) : JVal :=
  .obj [("type", .str "content_block_stop"), ("index", .num (Int.ofNat index))]

/-- The content_block_start event object for an empty text block. -/
def contentBlockStartTextEvent (index : Nat) : JVal :=
  .obj [("type", .str "content_block_start"),
        ("index", .num (Int.ofNat index)),
        ("content_block", .obj [("type", .str "text"), ("text", .str "")])]

/-- The content_block_delta event object carrying a text_delta. -/
def textDeltaEvent (index : Nat) (content : String) : JVal :=
  .obj [("type", .str "content_block_delta"),
        ("index", .num (Int.ofNat index)),
        ("delta", .obj [("type", .str "text_delta"), ("text", .str content)])]

/-- The content_block_start event object for a tool_use block. -/
def toolUseStartEvent (index : Nat) (toolCallID toolName : String) : JVal :=
  .obj [("type", .str "content_block_start"),
        ("index", .num (Int.ofNat index)),
        ("content_block", .obj
          [("type", .str "tool_use"),
           ("id", .str toolCallID),
           ("name", .str toolName),
           ("input", .obj [])])]

/-- The content_block_delta event object carrying an input_json_delta. -/
def inputJsonDeltaEvent (index : Nat) (arguments : String) : JVal :=
  .obj [("type", .str "content_block_delta"),
        ("index", .num (Int.ofNat index)),
        ("delta", .obj [("type", .str "input_json_delta"),
                        ("partial_json", .str arguments)])]

/-- The message_delta event object; `usageFields` is the optional usage
member appended by the Go code. -/
def messageDeltaEvent (stopReason : String) (usageFields : List (String × JVal)) : JVal :=
  .obj ([("type", .str "message_delta"),
         ("delta", .obj [("stop_reason", .str stopReason)])] ++ usageFields)

/-- The message_stop event object. -/
def messageStopEvent : JVal := .obj [("type", .str "message_stop")]

/-- The usage member attached to the message_delta emitted on the
empty-choices terminal path (input and output tokens). -/
def oaFullUsageFields (data : JVal) : List (String × JVal) :=
  match data.lookup "usage" with
  | some (.obj us) =>
      [("usage", .obj [("input_tokens", .num (jGetInt (.obj us) "prompt_tokens")),
                       ("output_tokens", .num (jGetInt (.obj us) "completion_tokens"))])]
  | _ => []

/-- The usage member attached to the message_delta emitted on the
latched-finish-reason terminal path (output tokens only). -/
def oaOutputUsageFields (data : JVal) : List (String × JVal) :=
  match data.lookup "usage" with
  | some (.obj us) =>
      [("usage", .obj [("output_tokens", .num (jGetInt (.obj us) "completion_tokens"))])]
  | _ => []

/-- The delta.content handling of the machine: open or split a text block
as needed, then emit the text_delta. -/
def oaProcessContent (s : OAState) (delta : JVal) : OAState × List JVal :=
  match delta.lookup "content" with
  | some (.str content) =>
      if content ≠ "" then
        let (s1, evs1) :=
          if s.contentBlockStarted = false ∨ s.currentBlockType ≠ "text" then
            let (s0, evs0) :=
              if s.contentBlockStarted then
                ({ s with contentBlockIndex := s.contentBlockIndex + 1 },
                 [contentBlockStopEvent s.contentBlockIndex])
              else (s, [])
            ({ s0 with contentBlockStarted := true, currentBlockType := "text" },
             evs0 ++ [contentBlockStartTextEvent s0.contentBlockIndex])
          else (s, [])
        (s1, evs1 ++ [textDeltaEvent s1.contentBlockIndex content])
      else (s, [])
  | _ => (s, [])

/-- One entry of the delta.tool_calls loop: a chunk entry carrying an id
opens a fresh tool_use block; an id-less entry with arguments extends the
open tool_use block; non-object entries are skipped. -/
def oaProcessToolCall (s : OAState) (tc : JVal) : OAState × List JVal :=
  match tc with
  | .obj tf =>
      let tcMap : JVal := .obj tf
      let functionMap : JVal := jGetMapD tcMap "function"
      let toolCallID := jGetString tcMap "id"
      let toolName := jGetString functionMap "name"
      let arguments := jGetString functionMap "arguments"
      if toolCallID ≠ "" then
        let (s1, evs1) :=
          if s.contentBlockStarted then
            ({ s with contentBlockIndex := s.contentBlockIndex + 1 },
             [contentBlockStopEvent s.contentBlockIndex])
          else (s, [])
        let s2 := { s1 with contentBlockStarted := true, currentBlockType := "tool_use" }
        let evs2 := evs1 ++ [toolUseStartEvent s1.contentBlockIndex toolCallID toolName]
        if arguments ≠ "" then
          (s2, evs2 ++ [inputJsonDeltaEvent s2.contentBlockIndex arguments])
        else (s2, evs2)
      else
        if arguments ≠ "" ∧ s.contentBlockStarted = true ∧ s.currentBlockType = "tool_use" then
          (s, [inputJsonDeltaEvent s.contentBlockIndex arguments])
        else (s, [])
  | _ => (s, [])

/-- The delta.tool_calls loop. -/
def oaProcessToolCalls (s : OAState) (tcs : List JVal) : OAState × List JVal :=
  tcs.foldl
    (fun acc tc =>
      let (s', evs) := oaProcessToolCall acc.1 tc
      (s', acc.2 ++ evs))
    (s, [])

/-- The whole delta handling (content, then tool_calls). -/
def oaProcessDelta (s : OAState) (choice : JVal) : OAState × List JVal :=
  match choice.lookup "delta" with
  | some (.obj df) =>
      let delta : JVal := .obj df
      let (s1, evs1) := oaProcessContent s delta
      let (s2, evs2) :=
        match delta.lookup "tool_calls" with
        | some (.arr tcs) => oaProcessToolCalls s1 tcs
        | _ => (s1, [])
      (s2, evs1 ++ evs2)
  | _ => (s, [])

/-- The prompt_tokens value read for the message_start event. -/
def oaStartInputTokens (data : JVal) : Int :=
  match data.lookup "usage" with
  | some (.obj us) => jGetInt (.obj us) "prompt_tokens"
  | _ => 0

/-- The finish-reason latch: a chunk whose first choice carries a non-empty
finish_reason string overwrites the state's finishReason. -/
def oaLatchFinish (s : OAState) (choice : JVal) : OAState :=
  match choice.lookup "finish_reason" with
  | some (.str fr) => if fr ≠ "" then { s with finishReason := fr } else s
  | _ => s

/-- Close the open content block, if any, appending its
content_block_stop event. -/
def oaCloseBlock (s : OAState) (evs : List JVal) : OAState × List JVal :=
  if s.contentBlockStarted then
    ({ s with contentBlockStarted := false, currentBlockType := "" },
     evs ++ [contentBlockStopEvent s.contentBlockIndex])
  else (s, evs)

/-- The terminal emission shared by both finishing paths: close the open
block, emit message_delta with the mapped latched finish reason and the
given usage member, then message_stop, and mark the machine finished. -/
def oaEmitTerminal (s : OAState) (evs : List JVal)
    (usageFields : List (String × JVal)) : OAState × List JVal :=
  let (s2, ev2) := oaCloseBlock s evs
  ({ s2 with finished := true },
   ev2 ++ [messageDeltaEvent (mapFinishReason s2.finishReason) usageFields, messageStopEvent])

/-- Model of converters.OpenAIStreamToAnthropicStream: one step of the
OpenAI-Chat-to-Anthropic stream machine.  Returns the updated state and the
events emitted for this chunk; `none` models the Go panic on a non-object
first choice.  A chunk with no (or a non-array) choices member finishes the
machine with the full usage member; a latched finish reason finishes it
with the output-tokens usage member. -/
def stepOA (s0 : OAState) (data : JVal) : Option (OAState × List JVal) :=
  let (s1, ev1) :=
    if s0.startSent = false then
      ({ s0 with startSent := true },
       [messageStartEvent (jGetString data "id") (jGetString data "model")
          (oaStartInputTokens data)])
    else (s0, [])
  if s1.finished then some (s1, ev1)
  else
    let choices :=
      match data.lookup "choices" with
      | some (.arr xs) => xs
      | _ => []
    match choices with
    | [] => some (oaEmitTerminal s1 ev1 (oaFullUsageFields data))
    | c0 :: _ =>
        match c0 with
        | .obj cf =>
            let choice : JVal := .obj cf
            let s2 := oaLatchFinish s1 choice
            let (s3, ev3) := oaProcessDelta s2 choice
            if s3.finishReason ≠ "" then
              some (oaEmitTerminal s3 (ev1 ++ ev3) (oaOutputUsageFields data))
            else some (s3, ev1 ++ ev3)
        | _ => none

/-! Typed models from internal/models/openai.go used by the converters
that operate on parsed structs rather than raw maps. -/

/-- Model of models.FunctionCall. -/
structure FunctionCall where
  name : String
  arguments : String
deriving Repr, DecidableEq

/-- Model of models.ToolCall (id, type and function; the struct has no
index field, which matters for the streaming converter below). -/
structure ToolCall where
  id : String
  type : String
  function : FunctionCall
deriving Repr, DecidableEq

/-- Model of models.ChatMessage.  `content` is the Go interface value
(string, parts array, or null when absent), modelled as `JVal`. -/
structure ChatMessage where
  role : String
  content : JVal
  name : String
  toolCalls : List ToolCall
  toolCallID : String
deriving Repr

/-- Model of models.Choice (chunk fields; the buffered-response `message`
field is carried too). -/
structure Choice where
  index : Int
  message : Option ChatMessage
  delta : Option ChatMessage
  finishReason : Option String
deriving Repr

/-- Model of models.ChatCompletionChunk (the fields the stream converters
read). -/
structure ChatCompletionChunk where
  id : String
  model : String
  choices : List Choice
deriving Repr

/-! Embedding of converters.OpenAIChatStreamToOpenAIResponsesStream and its
state record OpenAIChatToResponsesStreamState
(internal/converters/openai_chat_responses.go).  The Go state's
toolCallIndices map is modelled as an association list in insertion order;
the map's iteration order (used only for the terminal
response.output_item.done loop) is unspecified in Go, and no settled claim
relies on that order.  `nowNanos` models time.Now().UnixNano(), consulted
only when a chunk carries no id. -/

/-- Model of converters.OpenAIChatToResponsesStreamState. -/
structure RespState where
  responseID : String
  model : String
  created : Bool
  messageStarted : Bool
  nextOutputIndex : Nat
  toolCallIndices : List (String × Nat)
deriving Repr, DecidableEq

/-- Model of converters.NewOpenAIChatToResponsesStreamState. -/
def initRespState (model : String) : RespState := ⟨"", model, false, false, 1, []⟩

/-- Association-list lookup standing in for the Go map read. -/
def lookupIdx : List (String × Nat) → String → Option Nat
  | [], _ => none
  | (k', v) :: rest, k => if k' = k then some v else lookupIdx rest k

/-- The response.created event object. -/
def respCreatedEvent (responseID model : String) : JVal :=
  .obj [("type", .str "response.created"),
        ("response", .obj [("id", .str responseID), ("model", .str model),
                           ("status", .str "in_progress")])]

/-- The response.output_item.added event object for the assistant message. -/
def respMessageAddedEvent (responseID : String) : JVal :=
  .obj [("type", .str "response.output_item.added"),
        ("output_index", .num 0),
        ("item", .obj [("id", .str ("msg_" ++ responseID)),
                       ("type", .str "message"),
                       ("role", .str "assistant"),
                       ("content", .arr [])])]

/-- The response.content_part.added event object. -/
def respContentPartAddedEvent : JVal :=
  .obj [("type", .str "response.content_part.added"),
        ("output_index", .num 0),
        ("content_index", .num 0),
        ("part", .obj [("type", .str "output_text"), ("text", .str "")])]

/-- The response.output_text.delta event object. -/
def respTextDeltaEvent (content : String) : JVal :=
  .obj [("type", .str "response.output_text.delta"),
        ("output_index", .num 0),
        ("content_index", .num 0),
        ("delta", .str content)]

/-- The response.output_item.added event object for a function_call item. -/
def respFunctionItemAddedEvent (index : Nat) (callID name : String) : JVal :=
  .obj [("type", .str "response.output_item.added"),
        ("output_index", .num (Int.ofNat index)),
        ("item", .obj [("type", .str "function_call"),
                       ("call_id", .str callID),
                       ("name", .str name),
                       ("arguments", .str "")])]

/-- The response.function_call_arguments.delta event object. -/
def respArgsDeltaEvent (index : Nat) (delta : String) : JVal :=
  .obj [("type", .str "response.function_call_arguments.delta"),
        ("output_index", .num (Int.ofNat index)),
        ("delta", .str delta)]

/-- The response.output_item.done event object. -/
def respItemDoneEvent (index : Nat) : JVal :=
  .obj [("type", .str "response.output_item.done"),
        ("output_index", .num (Int.ofNat index))]

/-- The response.completed event object. -/
def respCompletedEvent (responseID model : String) (finishReason : String) : JVal :=
  if finishReason = "length" then
    .obj [("type", .str "response.completed"),
          ("response", .obj
            [("id", .str responseID), ("model", .str model),
             ("status", .str "incomplete"),
             ("incomplete_details", .obj [("reason", .str "max_output_tokens")])])]
  else
    .obj [("type", .str "response.completed"),
          ("response", .obj
            [("id", .str responseID), ("model", .str model),
             ("status", .str "completed")])]

/-- One entry of the delta.tool_calls loop of the chat-to-Responses
machine: an entry without an id gets a synthesized call id built from the
next output index; an unknown call id opens a new function_call item. -/
def respProcessToolCall (s : RespState) (tc : ToolCall) : RespState × List JVal :=
  let callID := if tc.id = "" then "call_" ++ toString s.nextOutputIndex else tc.id
  let (s1, index, evs1) :=
    match lookupIdx s.toolCallIndices callID with
    | some idx => (s, idx, ([] : List JVal))
    | none =>
        let idx := s.nextOutputIndex
        ({ s with toolCallIndices := s.toolCallIndices ++ [(callID, idx)],
                  nextOutputIndex := idx + 1 },
         idx,
         [respFunctionItemAddedEvent idx callID tc.function.name])
  if tc.function.arguments ≠ "" then
    (s1, evs1 ++ [respArgsDeltaEvent index tc.function.arguments])
  else (s1, evs1)

/-- Model of converters.OpenAIChatStreamToOpenAIResponsesStream: one step
of the OpenAI-Chat-to-OpenAI-Responses stream machine. -/
def stepChatToResponses (nowNanos : Int) (chunk : ChatCompletionChunk)
    (s0 : RespState) : RespState × List JVal :=
  match chunk.choices with
  | [] => (s0, [])
  | choice :: _ =>
      let s1 :=
        if s0.responseID = "" then
          if chunk.id ≠ "" then { s0 with responseID := chunk.id }
          else { s0 with responseID := "resp_" ++ toString nowNanos }
        else s0
      let s1 := if s1.model = "" ∧ chunk.model ≠ "" then { s1 with model := chunk.model } else s1
      let (s2, ev2) :=
        if s1.created = false then
          ({ s1 with created := true }, [respCreatedEvent s1.responseID s1.model])
        else (s1, [])
      let (s3, ev3) :=
        if s2.messageStarted = false then
          ({ s2 with messageStarted := true },
           ev2 ++ [respMessageAddedEvent s2.responseID, respContentPartAddedEvent])
        else (s2, ev2)
      let (s4, ev4) :=
        match choice.delta with
        | some delta =>
            let evText :=
              match delta.content with
              | .str content => if content ≠ "" then [respTextDeltaEvent content] else []
              | _ => []
            let (s4, evTc) :=
              delta.toolCalls.foldl
                (fun (acc : RespState × List JVal) tc =>
                  let (s', evs) := respProcessToolCall acc.1 tc
                  (s', acc.2 ++ evs))
                (s3, [])
            (s4, ev3 ++ evText ++ evTc)
        | none => (s3, ev3)
      match choice.finishReason with
      | some finishReason =>
          if finishReason ≠ "" then
            let evDoneMsg := if s4.messageStarted then [respItemDoneEvent 0] else []
            let evDoneTools :=
              s4.toolCallIndices.map (fun (kv : String × Nat) => respItemDoneEvent kv.2)
            (s4, ev4 ++ evDoneMsg ++ evDoneTools
                   ++ [respCompletedEvent s4.responseID s4.model finishReason])
          else (s4, ev4)
      | none => (s4, ev4)

/-! Typed models from internal/models used by the response converters. -/

/-- Model of models.Usage. -/
structure Usage where
  promptTokens : Int
  completionTokens : Int
  totalTokens : Int
deriving Repr, DecidableEq

/-- Model of models.ChatCompletionResponse (the fields the converters
write). -/
structure ChatCompletionResponse where
  id : String
  object : String
  created : Int
  model : String
  choices : List Choice
  usage : Option Usage
deriving Repr

/-- Model of models.ImageSource. -/
structure ImageSource where
  type : String
  mediaType : String
  data : String
deriving Repr, DecidableEq

/-- Model of models.ContentBlock (Anthropic content block).  `input` and
`content` are Go interface values; the Go nil is `JVal.null`. -/
structure ContentBlock where
  type : String
  text : String
  source : Option ImageSource
  id : String
  name : String
  input : JVal
  toolUseID : String
  content : JVal
  isError : Bool
deriving Repr

/-- Model of models.AnthropicUsage (the two fields the converters set). -/
structure AnthropicUsage where
  inputTokens : Int
  outputTokens : Int
deriving Repr, DecidableEq

/-- Model of models.MessagesResponse. -/
structure MessagesResponse where
  id : String
  type : String
  role : String
  content : List ContentBlock
  model : String
  stopReason : Option String
  usage : AnthropicUsage
deriving Repr

/-- Model of converters.generateID; `nowNanos` models
time.Now().UnixNano(). -/
def generateID (nowNanos : Int) : String := "chatcmpl-" ++ toString nowNanos

/-- Model of converters.generateToolCallID; `nowStr` models the formatted
current time. -/
def generateToolCallID (nowStr : String) (index : Nat) : String :=
  "call_" ++ nowStr ++ "_" ++ String.singleton (Char.ofNat (97 + index))

/-! Embedding of converters.GeminiToOpenAIResponse
(internal/converters/openai_to_gemini.go).  The loop over candidate parts
asserts each part to be an object without a check; `none` models that
panic. -/

/-- The parts loop of GeminiToOpenAIResponse: accumulate text and build a
tool call for each functionCall part. -/
def geminiFoldParts (nowStr : String) :
    List JVal → String → List ToolCall → Nat → Option (String × List ToolCall)
  | [], text, tcs, _ => some (text, tcs)
  | part :: rest, text, tcs, idx =>
      match part with
      | .obj pf =>
          let partMap : JVal := .obj pf
          let text' :=
            match partMap.lookup "text" with
            | some (.str t) => text ++ t
            | _ => text
          match partMap.lookup "functionCall" with
          | some (.obj fcf) =>
              let fc : JVal := .obj fcf
              let args :=
                jsonStringify (match fc.lookup "args" with | some v => v | none => .null)
              geminiFoldParts nowStr rest text'
                (tcs ++ [⟨generateToolCallID nowStr idx, "function",
                          ⟨jGetString fc "name", args⟩⟩])
                (idx + 1)
          | _ => geminiFoldParts nowStr rest text' tcs idx
      | _ => none

/-- Model of converters.GeminiToOpenAIResponse. -/
def GeminiToOpenAIResponse (nowNanos nowUnix : Int) (nowStr : String)
    (resp : JVal) (model : String) : Option ChatCompletionResponse :=
  let base : ChatCompletionResponse :=
    ⟨generateID nowNanos, "chat.completion", nowUnix, model, [], none⟩
  match resp.lookup "candidates" with
  | some (.arr (c0 :: _)) =>
      match c0 with
      | .obj cf =>
          let candidate : JVal := .obj cf
          match candidate.lookup "content" with
          | some (.obj ctf) =>
              match (JVal.obj ctf).lookup "parts" with
              | some (.arr parts) =>
                  (match geminiFoldParts nowStr parts "" [] 0 with
                   | none => none
                   | some (textContent, toolCalls) =>
                       let message : ChatMessage :=
                         ⟨"assistant",
                          (if textContent ≠ "" then .str textContent else .null),
                          "", toolCalls, ""⟩
                       let finishReason : String :=
                         match candidate.lookup "finishReason" with
                         | some (.str fr) =>
                             (match fr with
                              | "STOP" => "stop"
                              | "MAX_TOKENS" => "length"
                              | _ => if toolCalls.length > 0 then "tool_calls" else "stop")
                         | _ => ""
                       let usage : Option Usage :=
                         match resp.lookup "usageMetadata" with
                         | some (.obj us) =>
                             let p := jGetInt (.obj us) "promptTokenCount"
                             let c := jGetInt (.obj us) "candidatesTokenCount"
                             some ⟨p, c, p + c⟩
                         | _ => none
                       some { base with
                              choices := [⟨0, some message, none, some finishReason⟩],
                              usage := usage })
              | _ => none
          | _ => none
      | _ => none
  | some (.arr []) => some base
  | _ => some base

/-! Embedding of converters.AnthropicToOpenAIResponse
(internal/converters/openai_to_anthropic.go).  All type assertions on the
content path are checked, so the function is total. -/

/-- Model of converters.AnthropicToOpenAIResponse. -/
def AnthropicToOpenAIResponse (nowUnix : Int) (resp : JVal) (model : String) :
    ChatCompletionResponse :=
  let (textContent, toolCalls) :=
    match resp.lookup "content" with
    | some (.str s) => (s, ([] : List ToolCall))
    | some (.arr blocks) =>
        blocks.foldl
          (fun (acc : String × List ToolCall) block =>
            match block with
            | .obj bf =>
                let blockMap : JVal := .obj bf
                let blockType := jGetString blockMap "type"
                if blockType = "text" then (acc.1 ++ jGetString blockMap "text", acc.2)
                else if blockType = "tool_use" then
                  let args :=
                    jsonStringify
                      (match blockMap.lookup "input" with | some v => v | none => .null)
                  (acc.1,
                   acc.2 ++ [⟨jGetString blockMap "id", "function",
                              ⟨jGetString blockMap "name", args⟩⟩])
                else acc
            | _ => acc)
          ("", [])
    | _ => ("", [])
  let message : ChatMessage :=
    ⟨"assistant", (if textContent ≠ "" then .str textContent else .null), "", toolCalls, ""⟩
  let finishReason : String :=
    match resp.lookup "stop_reason" with
    | some (.str sr) =>
        (match sr with
         | "end_turn" => "stop"
         | "max_tokens" => "length"
         | "tool_use" => "tool_calls"
         | other => other)
    | _ => ""
  let usage : Option Usage :=
    match resp.lookup "usage" with
    | some (.obj us) =>
        let i := jGetInt (.obj us) "input_tokens"
        let o := jGetInt (.obj us) "output_tokens"
        some ⟨i, o, i + o⟩
    | _ => none
  ⟨jGetString resp "id", "chat.completion", nowUnix, model,
   [⟨0, some message, none, some finishReason⟩], usage⟩

/-! Embedding of converters.OpenAIToAnthropicResponse
(internal/converters/openai_to_gemini.go, second unit).  The loop over
tool_calls asserts each entry to be an object without a check; `none`
models that panic. -/

/-- Append text to the content blocks, merging into a trailing text
block as the Go code does. -/
def appendTextBlock (blocks : List ContentBlock) (text : String) : List ContentBlock :=
  if text = "" then blocks
  else
    match blocks.getLast? with
    | some lastB =>
        if lastB.type = "text" then
          blocks.dropLast ++ [{ lastB with text := lastB.text ++ text }]
        else blocks ++ [⟨"text", text, none, "", "", .null, "", .null, false⟩]
    | none => blocks ++ [⟨"text", text, none, "", "", .null, "", .null, false⟩]

/-- The message content handling of OpenAIToAnthropicResponse: a plain
string becomes one text block; an array of parts contributes text and
image blocks (non-object parts are skipped). -/
def oaRespBlocksOfContent : Option JVal → List ContentBlock
  | some (.str s) =>
      if s ≠ "" then [⟨"text", s, none, "", "", .null, "", .null, false⟩] else []
  | some (.arr parts) =>
      parts.foldl
        (fun (acc : List ContentBlock) part =>
          match part with
          | .obj pf =>
              let partMap : JVal := .obj pf
              match jGetString partMap "type" with
              | "text" => appendTextBlock acc (jGetString partMap "text")
              | "image_url" =>
                  (match partMap.lookup "image_url" with
                   | some (.obj iuf) =>
                       let url := jGetString (.obj iuf) "url"
                       if url ≠ "" then
                         acc ++ [⟨"image", "", some ⟨"base64", "", url⟩, "", "", .null, "",
                                  .null, false⟩]
                       else acc
                   | _ => acc)
              | _ => acc
          | _ => acc)
        []
  | _ => []

/-- The tool_calls loop of OpenAIToAnthropicResponse: each entry becomes a
tool_use block.  A missing function object yields an empty-object input; a
present function whose arguments fail json.Unmarshal leaves the input at
its nil zero value. -/
def oaRespToolBlocks : List JVal → Option (List ContentBlock)
  | [] => some []
  | tc :: rest =>
      match tc with
      | .obj tf =>
          let tcMap : JVal := .obj tf
          let function : Option JVal := jGetMap tcMap "function"
          let input : JVal :=
            match function with
            | some f =>
                (match f.lookup "arguments" with
                 | some (.str args) =>
                     (match jsonParse args with
                      | some v => v
                      | none => .null)
                 | _ => .null)
            | none => .obj []
          let functionName :=
            match function with
            | some f => jGetString f "name"
            | none => ""
          (match oaRespToolBlocks rest with
           | some blocks =>
               some (⟨"tool_use", "", none, jGetString tcMap "id", functionName, input, "",
                      .null, false⟩ :: blocks)
           | none => none)
      | _ => none

/-- Model of converters.OpenAIToAnthropicResponse. -/
def OpenAIToAnthropicResponse (resp : JVal) (model : String) : Option MessagesResponse :=
  let base : MessagesResponse :=
    ⟨jGetString resp "id", "message", "assistant", [], model, none, ⟨0, 0⟩⟩
  match resp.lookup "choices" with
  | some (.arr (c0 :: _)) =>
      match c0 with
      | .obj cf =>
          let choice : JVal := .obj cf
          (match choice.lookup "message" with
           | some (.obj mf) =>
               let message : JVal := .obj mf
               let blocks0 := oaRespBlocksOfContent (message.lookup "content")
               (match (match message.lookup "tool_calls" with
                       | some (.arr tcs) => oaRespToolBlocks tcs
                       | _ => some []) with
                | none => none
                | some toolBlocks =>
                    let stopReason : Option String :=
                      match choice.lookup "finish_reason" with
                      | some (.str fr) =>
                          some (match fr with
                                | "stop" => "end_turn"
                                | "length" => "max_tokens"
                                | "tool_calls" => "tool_use"
                                | other => other)
                      | _ => none
                    let usage : AnthropicUsage :=
                      match resp.lookup "usage" with
                      | some (.obj us) =>
                          ⟨jGetInt (.obj us) "input_tokens", jGetInt (.obj us) "output_tokens"⟩
                      | _ => ⟨0, 0⟩
                    some { base with
                           content := blocks0 ++ toolBlocks,
                           stopReason := stopReason,
                           usage := usage })
           | _ => some base)
      | _ => none
  | _ => some base

/-! Models for the Anthropic request side (internal/models/anthropic.go)
and the two visible copies of converters.OpenAIToAnthropicRequest.  The
sampling parameters (temperature, top_p, top_k, stop sequences) are copied
field by field by code independent of every claim and are not repeated
here; the model, max_tokens, system, message, tool and tool_choice
handling is embedded in full. -/

/-- The value an Anthropic message content interface field can hold after
conversion: a plain string, a block list, or the raw inbound value passed
through unchanged. -/
inductive AnthContent where
  | str : String → AnthContent
  | blocks : List ContentBlock → AnthContent
  | raw : JVal → AnthContent
deriving Repr

/-- Model of models.AnthropicMessage. -/
structure AnthropicMessage where
  role : String
  content : AnthContent
deriving Repr

/-- Model of the models.MessagesRequest tool_choice interface value: the
typed ToolChoiceAuto, ToolChoiceAny and ToolChoiceTool structs, a decoded
JSON object, or any other Go value. -/
inductive AnthToolChoice where
  | auto : String → AnthToolChoice
  | any : String → AnthToolChoice
  | tool : String → String → AnthToolChoice
  | fromMap : JVal → AnthToolChoice
  | other : AnthToolChoice
deriving Repr

/-- Model of models.AnthropicTool; `inputSchema` is the interface value
(null models the Go nil). -/
structure AnthropicTool where
  name : String
  description : String
  inputSchema : JVal
deriving Repr

/-- Model of models.Function (OpenAI tool function). -/
structure OAIFunction where
  name : String
  description : String
  parameters : JVal
deriving Repr

/-- Model of models.Tool. -/
structure Tool where
  type : String
  function : OAIFunction
deriving Repr

/-- Model of the OpenAI request tool_choice interface value. -/
inductive OAIToolChoice where
  | str : String → OAIToolChoice
  | objChoice : String → OAIToolChoice
  | fromMap : JVal → OAIToolChoice
deriving Repr

/-- Model of models.ChatCompletionRequest (the fields the embedded
converters read). -/
structure ChatCompletionRequest where
  model : String
  messages : List ChatMessage
  maxTokens : Option Int
  stream : Bool
  tools : List Tool
  toolChoice : Option OAIToolChoice
deriving Repr

/-- Model of models.MessagesRequest.  `system` holds the plain system
string the converters assign (the empty string when unset). -/
structure MessagesRequest where
  model : String
  maxTokens : Int
  system : String
  messages : List AnthropicMessage
  tools : List AnthropicTool
  toolChoice : Option AnthToolChoice
  stream : Bool
deriving Repr

/-- Model of converters.extractOpenAIContentParts on decoded JSON content:
text of the parts concatenated, plus image blocks for image_url parts. -/
def extractOpenAIContentParts : JVal → String × List ContentBlock
  | .null => ("", [])
  | .str s => (s, [])
  | .arr items =>
      items.foldl
        (fun (acc : String × List ContentBlock) item =>
          match item with
          | .obj pf =>
              let partMap : JVal := .obj pf
              match jGetString partMap "type" with
              | "text" => (acc.1 ++ jGetString partMap "text", acc.2)
              | "image_url" =>
                  (match partMap.lookup "image_url" with
                   | some (.obj iuf) =>
                       let url := jGetString (.obj iuf) "url"
                       if url ≠ "" then
                         (acc.1,
                          acc.2 ++ [⟨"image", "", some ⟨"base64", "", url⟩, "", "", .null, "",
                                    .null, false⟩])
                       else acc
                   | _ => acc)
              | _ => acc
          | _ => acc)
        ("", [])
  | _ => ("", [])

/-- The tool_use block both request-converter copies build from one
OpenAI tool call: json.Unmarshal the arguments, degrading to an empty
object on a parse error. -/
def toolUseBlockOfToolCall (tc : ToolCall) : ContentBlock :=
  let input : JVal :=
    match jsonParse tc.function.arguments with
    | some v => v
    | none => .obj []
  ⟨"tool_use", "", none, tc.id, tc.function.name, input, "", .null, false⟩

/-- The tool_choice conversion of the first OpenAIToAnthropicRequest. -/
def convertOAIToolChoice : Option OAIToolChoice → Option AnthToolChoice
  | none => none
  | some (.str s) =>
      if s = "auto" then some (.auto "auto")
      else if s = "required" then some (.any "any")
      else none
  | some (.objChoice name) => some (.tool "tool" name)
  | some (.fromMap m) =>
      match m.lookup "type" with
      | some (.str t) =>
          if t = "auto" then some (.auto "auto")
          else if t = "required" then some (.any "any")
          else if t = "function" then
            match m.lookup "function" with
            | some (.obj ff) =>
                let name := jGetString (.obj ff) "name"
                if name ≠ "" then some (.tool "tool" name) else none
            | _ => none
          else none
      | _ => none

/-- The loop body of the first copy of converters.OpenAIToAnthropicRequest
(internal/converters/openai_to_anthropic.go, first unit): the accumulator
carries the converted messages and the concatenated system text. -/
def oaReqFoldStep (acc : List AnthropicMessage × String) (msg : ChatMessage) :
    List AnthropicMessage × String :=
  if msg.role = "system" then (acc.1, acc.2 ++ getTextContent msg.content)
  else if msg.role = "tool" then
    (acc.1 ++ [⟨"user", .blocks [⟨"tool_result", "", none, msg.toolCallID, "", .null, "",
                                  msg.content, false⟩]⟩],
     acc.2)
  else
    let (textContent, imageBlocks) := extractOpenAIContentParts msg.content
    let blocks :=
      (if textContent ≠ "" then
         [(⟨"text", textContent, none, "", "", .null, "", .null, false⟩ : ContentBlock)]
       else [])
      ++ imageBlocks
      ++ (if msg.toolCalls.length > 0 then msg.toolCalls.map toolUseBlockOfToolCall
          else [])
    let content : AnthContent :=
      match blocks with
      | [] => .raw msg.content
      | [b] =>
          if b.type = "text" ∧ msg.toolCalls.isEmpty ∧ imageBlocks.isEmpty then .str b.text
          else .blocks [b]
      | bs => .blocks bs
    (acc.1 ++ [⟨msg.role, content⟩], acc.2)

/-- Model of the first copy of converters.OpenAIToAnthropicRequest:
system messages are accumulated by concatenation. -/
def OpenAIToAnthropicRequest (req : ChatCompletionRequest) : MessagesRequest :=
  let maxTokens : Int :=
    match req.maxTokens with
    | some m => m
    | none => 4096
  let (messages, systemText) := req.messages.foldl oaReqFoldStep ([], "")
  let tools : List AnthropicTool :=
    req.tools.map (fun t => ⟨t.function.name, t.function.description, t.function.parameters⟩)
  ⟨req.model, maxTokens, systemText, messages, tools, convertOAIToolChoice req.toolChoice,
   req.stream⟩

/-- The loop body of the second copy of converters.OpenAIToAnthropicRequest
(internal/converters/openai_to_anthropic.go, second unit): each system
message overwrites the accumulated system text; this copy keys tool_result
blocks by the tool_use_id field. -/
def oaReqFoldStepV2 (acc : List AnthropicMessage × String) (msg : ChatMessage) :
    List AnthropicMessage × String :=
  if msg.role = "system" then (acc.1, getTextContent msg.content)
  else if msg.role = "tool" then
    (acc.1 ++ [⟨"user", .blocks [⟨"tool_result", "", none, "", "", .null, msg.toolCallID,
                                  msg.content, false⟩]⟩],
     acc.2)
  else if msg.toolCalls.length > 0 then
    let content := getTextContent msg.content
    let blocks :=
      (if content ≠ "" then
         [(⟨"text", content, none, "", "", .null, "", .null, false⟩ : ContentBlock)]
       else [])
      ++ msg.toolCalls.map toolUseBlockOfToolCall
    (acc.1 ++ [⟨msg.role, .blocks blocks⟩], acc.2)
  else (acc.1 ++ [⟨msg.role, .raw msg.content⟩], acc.2)

/-- Model of the second copy of converters.OpenAIToAnthropicRequest: only
the last system message's text is kept and there is no tool_choice
conversion. -/
def OpenAIToAnthropicRequestV2 (req : ChatCompletionRequest) : MessagesRequest :=
  let maxTokens : Int :=
    match req.maxTokens with
    | some m => m
    | none => 4096
  let (messages, systemText) := req.messages.foldl oaReqFoldStepV2 ([], "")
  let tools : List AnthropicTool :=
    req.tools.map (fun t => ⟨t.function.name, t.function.description, t.function.parameters⟩)
  ⟨req.model, maxTokens, systemText, messages, tools, none, req.stream⟩

/-! Embedding of MessagesRequest.Validate, validateToolChoice and
AnthropicTool.ValidateInputSchema (internal/models/anthropic.go).  The
result is the error message, or `none` for a valid request. -/

/-- Model of AnthropicTool.ValidateInputSchema (the schema must be a
non-nil object; the type-field defaulting does not affect validity). -/
def ValidateInputSchema (t : AnthropicTool) : Option String :=
  match t.inputSchema with
  | .null => some "input_schema cannot be nil"
  | .obj _ => none
  | _ => some "input_schema must be a dictionary/object"

/-- The tool loop of Validate: the first schema error, if any. -/
def firstToolError : List AnthropicTool → Option String
  | [] => none
  | t :: rest =>
      match ValidateInputSchema t with
      | some e => some ("tool validation failed: " ++ e)
      | none => firstToolError rest

/-- Model of MessagesRequest.validateToolChoice. -/
def validateToolChoice : AnthToolChoice → Option String
  | .auto t => if t ≠ "auto" then some "tool_choice type must be auto" else none
  | .any t => if t ≠ "any" then some "tool_choice type must be any" else none
  | .tool t n =>
      if t ≠ "tool" then some "tool_choice type must be tool"
      else if n = "" then some "tool_choice name is required when type is tool"
      else none
  | .fromMap m =>
      (match m.lookup "type" with
       | some (.str t) =>
           if t = "auto" ∨ t = "any" then none
           else if t = "tool" then
             match m.lookup "name" with
             | some (.str n) =>
                 if n = "" then some "tool_choice name is required when type is tool" else none
             | _ => some "tool_choice name is required when type is tool"
           else some "invalid tool_choice type"
       | _ => some "tool_choice type is required")
  | .other => some "invalid tool_choice format"

/-- Model of MessagesRequest.Validate. -/
def Validate (r : MessagesRequest) : Option String :=
  if r.model = "" then some "model is required"
  else if r.maxTokens ≤ 0 then some "max_tokens must be positive"
  else
    match firstToolError r.tools with
    | some e => some e
    | none =>
        match r.toolChoice with
        | some tc =>
            (match validateToolChoice tc with
             | some e => some ("tool_choice validation failed: " ++ e)
             | none => none)
        | none => none

/-! Embedding of the provider resolver (handlers.resolveProviderForAPIKey)
and the built-in prefix classifier (handlers.getTargetProvider), plus the
provider-selection step of handlers.AnthropicMessages that combines them.
The collaborator call configService.GetModelCodes is modelled by the
`modelCodes` field of a configuration: `none` records a lookup error (the
Go code logs and skips the config), `some codes` the returned list. -/

/-- Model of database.ProviderConfig (the fields the resolver reads). -/
structure ProviderConfig where
  provider : String
  isActive : Bool
  isDefault : Bool
  modelCodes : Option (List String)
deriving Repr, DecidableEq

/-- Model of the caller's API-key record (its provider configurations in
user-insertion order). -/
structure APIKey where
  providerConfigs : List ProviderConfig
deriving Repr, DecidableEq

/-- Model of handlers.resolvedProvider. -/
structure ResolvedProvider where
  provider : String
  model : String
  config : ProviderConfig
  matched : Bool
deriving Repr, DecidableEq

/-- The loop of resolveProviderForAPIKey: scan the configurations in
order, tracking the first active one, and return the first active
configuration whose model codes contain the requested model; otherwise
return the tracked first-active configuration. -/
def resolveScan (model : String) :
    List ProviderConfig → Option ProviderConfig → Sum ResolvedProvider (Option ProviderConfig)
  | [], firstActive => .inr firstActive
  | cfg :: rest, firstActive =>
      if cfg.isActive = false then resolveScan model rest firstActive
      else
        let firstActive' :=
          match firstActive with
          | none => some cfg
          | some c => some c
        match cfg.modelCodes with
        | none => resolveScan model rest firstActive'
        | some codes =>
            if model ∈ codes then .inl ⟨cfg.provider, model, cfg, true⟩
            else resolveScan model rest firstActive'

/-- Model of handlers.resolveProviderForAPIKey.  `none` for the API key
models a request authenticated without one (the resolver returns nil, nil);
errors carry the Go error messages. -/
def resolveProviderForAPIKey (apiKey : Option APIKey) (model : String) :
    Except String (Option ResolvedProvider) :=
  match apiKey with
  | none => .ok none
  | some k =>
      if k.providerConfigs.isEmpty then .error "API key has no provider configs"
      else
        match resolveScan model k.providerConfigs none with
        | .inl r => .ok (some r)
        | .inr none => .error "API key has no active provider configs"
        | .inr (some firstActive) =>
            let resolvedModel :=
              match firstActive.modelCodes with
              | none => model
              | some [] => model
              | some (c :: _) => c
            .ok (some ⟨firstActive.provider, resolvedModel, firstActive, false⟩)

/-- Model of strings.HasPrefix (stated over the character lists so that it
evaluates inside the kernel). -/
def strHasPre (s pre : String) : Bool := pre.data.isPrefixOf s.data

/-- Model of handlers.getTargetProvider, the built-in prefix classifier. -/
def getTargetProvider (model : String) : String :=
  if strHasPre model "gpt-" ∨ strHasPre model "o1-" ∨ strHasPre model "o3-" then "openai"
  else if strHasPre model "claude-" then "anthropic"
  else if strHasPre model "gemini-" then "gemini"
  else ""

/-- The provider-selection step of handlers.AnthropicMessages: take the
API-key resolver's provider and possibly rewritten model when available,
and consult the prefix classifier only when that leaves the provider
empty. -/
def anthropicResolveTarget (apiKey : Option APIKey) (model : String) :
    Except String (String × String) :=
  match resolveProviderForAPIKey apiKey model with
  | .error e => .error e
  | .ok resolved =>
      let model' :=
        match resolved with
        | some r => r.model
        | none => model
      let provider :=
        match resolved with
        | some r => r.provider
        | none => ""
      let provider := if provider = "" then getTargetProvider model' else provider
      if provider = "" then .error "unsupported model" else .ok (provider, model')

/-! Lemmas about the OpenAI-to-Anthropic stream machine. -/

/-- Closing the open block never touches startSent, finished or the
finish-reason latch, and always leaves no block open. -/
theorem oaCloseBlock_frame (s : OAState) (evs : List JVal) :
    (oaCloseBlock s evs).1.startSent = s.startSent ∧
    (oaCloseBlock s evs).1.finished = s.finished ∧
    (oaCloseBlock s evs).1.finishReason = s.finishReason ∧
    (oaCloseBlock s evs).1.contentBlockStarted = false := by
  unfold oaCloseBlock
  split <;> simp_all

/-- The terminal emission marks the machine finished and preserves
startSent and the latch. -/
theorem oaEmitTerminal_spec (s : OAState) (evs : List JVal) (uf : List (String × JVal)) :
    (oaEmitTerminal s evs uf).1.finished = true ∧
    (oaEmitTerminal s evs uf).1.startSent = s.startSent ∧
    (oaEmitTerminal s evs uf).1.finishReason = s.finishReason := by
  unfold oaEmitTerminal
  obtain ⟨s2, ev2, h2⟩ : ∃ a b, oaCloseBlock s evs = (a, b) := ⟨_, _, rfl⟩
  have hc := oaCloseBlock_frame s evs
  rw [h2] at hc ⊢
  simp only [] at hc
  exact ⟨rfl, hc.1, hc.2.2.1⟩

/-- The latch update touches nothing besides the finish reason. -/
theorem oaLatchFinish_frame (s : OAState) (choice : JVal) :
    (oaLatchFinish s choice).startSent = s.startSent ∧
    (oaLatchFinish s choice).finished = s.finished := by
  unfold oaLatchFinish
  split <;> try simp
  split <;> simp

/-- The text-delta handling touches only the block-cursor fields. -/
theorem oaProcessContent_frame (s : OAState) (δ : JVal) :
    (oaProcessContent s δ).1.startSent = s.startSent ∧
    (oaProcessContent s δ).1.finished = s.finished ∧
    (oaProcessContent s δ).1.finishReason = s.finishReason := by
  unfold oaProcessContent
  split <;> try simp
  split <;> try simp
  split <;> try simp
  split <;> simp

/-- One tool-call entry touches only the block-cursor fields. -/
theorem oaProcessToolCall_frame (s : OAState) (tc : JVal) :
    (oaProcessToolCall s tc).1.startSent = s.startSent ∧
    (oaProcessToolCall s tc).1.finished = s.finished ∧
    (oaProcessToolCall s tc).1.finishReason = s.finishReason := by
  unfold oaProcessToolCall
  split <;> try simp
  split_ifs <;> simp

/-- The tool-call fold touches only the block-cursor fields. -/
theorem oaFoldTc_frame (tcs : List JVal) :
    ∀ (acc : OAState × List JVal),
      ((tcs.foldl
          (fun acc tc =>
            let (s', evs) := oaProcessToolCall acc.1 tc
            (s', acc.2 ++ evs))
          acc).1.startSent = acc.1.startSent ∧
       (tcs.foldl
          (fun acc tc =>
            let (s', evs) := oaProcessToolCall acc.1 tc
            (s', acc.2 ++ evs))
          acc).1.finished = acc.1.finished ∧
       (tcs.foldl
          (fun acc tc =>
            let (s', evs) := oaProcessToolCall acc.1 tc
            (s', acc.2 ++ evs))
          acc).1.finishReason = acc.1.finishReason) := by
  induction tcs with
  | nil => intro acc; simp
  | cons tc rest ih =>
      intro acc
      simp only [List.foldl]
      obtain ⟨s', evs, hpc⟩ : ∃ a b, oaProcessToolCall acc.1 tc = (a, b) := ⟨_, _, rfl⟩
      rw [hpc]
      have h := oaProcessToolCall_frame acc.1 tc
      rw [hpc] at h
      simp only [] at h
      have h2 := ih (s', acc.2 ++ evs)
      exact ⟨by rw [h2.1]; exact h.1, by rw [h2.2.1]; exact h.2.1, by rw [h2.2.2]; exact h.2.2⟩

/-- The tool-calls loop touches only the block-cursor fields. -/
theorem oaProcessToolCalls_frame (s : OAState) (tcs : List JVal) :
    (oaProcessToolCalls s tcs).1.startSent = s.startSent ∧
    (oaProcessToolCalls s tcs).1.finished = s.finished ∧
    (oaProcessToolCalls s tcs).1.finishReason = s.finishReason := by
  unfold oaProcessToolCalls
  exact oaFoldTc_frame tcs (s, [])

/-- The whole delta handling touches only the block-cursor fields. -/
theorem oaProcessDelta_frame (s : OAState) (choice : JVal) :
    (oaProcessDelta s choice).1.startSent = s.startSent ∧
    (oaProcessDelta s choice).1.finished = s.finished ∧
    (oaProcessDelta s choice).1.finishReason = s.finishReason := by
  unfold oaProcessDelta
  split
  case _ =>
    rename_i df hd
    dsimp only
    obtain ⟨s1, evs1, h1⟩ : ∃ a b, oaProcessContent s (JVal.obj df) = (a, b) := ⟨_, _, rfl⟩
    have hc := oaProcessContent_frame s (JVal.obj df)
    rw [h1] at hc
    rw [h1]
    dsimp only
    simp only [] at hc
    split
    case _ =>
      rename_i tcs htc
      have ht := oaProcessToolCalls_frame s1 tcs
      obtain ⟨s2, evs2, h2⟩ : ∃ a b, oaProcessToolCalls s1 tcs = (a, b) := ⟨_, _, rfl⟩
      rw [h2] at ht ⊢
      simp only [] at ht
      exact ⟨by rw [ht.1, hc.1], by rw [ht.2.1, hc.2.1], by rw [ht.2.2, hc.2.2]⟩
    case _ =>
      exact ⟨hc.1, hc.2.1, hc.2.2⟩
  case _ =>
    simp

/-- A finished machine whose preamble was sent ignores every further chunk:
same state back, no events. -/
theorem stepOA_finished_noop (s : OAState) (d : JVal)
    (hfin : s.finished = true) (hstart : s.startSent = true) :
    stepOA s d = some (s, []) := by
  simp [stepOA, hfin, hstart]

/-- Every successful step leaves the preamble flag set. -/
theorem stepOA_startSent (s : OAState) (d : JVal) (s' : OAState) (evs : List JVal)
    (h : stepOA s d = some (s', evs)) : s'.startSent = true := by
  unfold stepOA at h
  split at h
  rename_i p s1 ev1 heq
  have hss : s1.startSent = true := by
    split at heq
    · cases heq; rfl
    · rename_i hns; cases heq; simpa using hns
  split at h
  · injection h with h
    cases h
    exact hss
  · dsimp only at h
    split at h
    · injection h with h
      have hE := oaEmitTerminal_spec s1 ev1 (oaFullUsageFields d)
      rw [h] at hE
      simp only [] at hE
      rw [hE.2.1]
      exact hss
    · rename_i c0 tail hchoices
      split at h
      · rename_i cf
        split at h
        · injection h with h
          have hE := oaEmitTerminal_spec
            (oaProcessDelta (oaLatchFinish s1 (JVal.obj cf)) (JVal.obj cf)).1
            (ev1 ++ (oaProcessDelta (oaLatchFinish s1 (JVal.obj cf)) (JVal.obj cf)).2)
            (oaOutputUsageFields d)
          rw [h] at hE
          simp only [] at hE
          rw [hE.2.1, (oaProcessDelta_frame (oaLatchFinish s1 (JVal.obj cf)) (JVal.obj cf)).1,
              (oaLatchFinish_frame s1 (JVal.obj cf)).1]
          exact hss
        · injection h with h
          cases h
          rw [(oaProcessDelta_frame (oaLatchFinish s1 (JVal.obj cf)) (JVal.obj cf)).1,
              (oaLatchFinish_frame s1 (JVal.obj cf)).1]
          exact hss
      · cases h

/-- Every successful step that leaves a non-empty latch also leaves the
machine finished. -/
theorem stepOA_latch_finished (s : OAState) (d : JVal) (s' : OAState) (evs : List JVal)
    (h : stepOA s d = some (s', evs)) (hfr : s'.finishReason ≠ "") : s'.finished = true := by
  unfold stepOA at h
  split at h
  rename_i p s1 ev1 heq
  have hfin1 : s1.finished = s.finished := by
    split at heq
    · cases heq; rfl
    · cases heq; rfl
  split at h
  · rename_i hf
    injection h with h
    cases h
    exact hf
  · dsimp only at h
    split at h
    · injection h with h
      have hE := oaEmitTerminal_spec s1 ev1 (oaFullUsageFields d)
      rw [h] at hE
      simp only [] at hE
      exact hE.1
    · rename_i c0 tail hchoices
      split at h
      · rename_i cf
        split at h
        · injection h with h
          have hE := oaEmitTerminal_spec
            (oaProcessDelta (oaLatchFinish s1 (JVal.obj cf)) (JVal.obj cf)).1
            (ev1 ++ (oaProcessDelta (oaLatchFinish s1 (JVal.obj cf)) (JVal.obj cf)).2)
            (oaOutputUsageFields d)
          rw [h] at hE
          simp only [] at hE
          exact hE.1
        · rename_i hnl
          injection h with h
          cases h
          exact absurd hfr (by simpa using hnl)
      · cases h

/-- The stream-machine states reachable from the initial state. -/
inductive OAReachable : OAState → Prop where
  | init : OAReachable initOAState
  | step : ∀ (s : OAState) (data : JVal) (s' : OAState) (evs : List JVal),
      OAReachable s → stepOA s data = some (s', evs) → OAReachable s'

/-- Invariant of reachable states: a non-empty latch implies the machine is
finished, and a finished machine has sent its preamble. -/
theorem oaReachable_inv (s : OAState) (h : OAReachable s) :
    (s.finishReason ≠ "" → s.finished = true) ∧ (s.finished = true → s.startSent = true) := by
  induction h with
  | init =>
      refine ⟨fun hfr => absurd rfl hfr, fun hf => Bool.noConfusion hf⟩
  | step s d s' evs hr hstep ih =>
      exact ⟨fun hfr => stepOA_latch_finished s d s' evs hstep hfr,
             fun _ => stepOA_startSent s d s' evs hstep⟩

/-- Explicit form of the block-closing step. -/
theorem oaCloseBlock_eq (s : OAState) (evs : List JVal) :
    oaCloseBlock s evs =
      ({ s with contentBlockStarted := false,
                currentBlockType := (if s.contentBlockStarted then "" else s.currentBlockType) },
       evs ++ (if s.contentBlockStarted then [contentBlockStopEvent s.contentBlockIndex] else [])) := by
  cases s
  unfold oaCloseBlock
  split <;> simp_all

/-- Explicit form of the terminal emission. -/
theorem oaEmitTerminal_eq (s : OAState) (evs : List JVal) (uf : List (String × JVal)) :
    oaEmitTerminal s evs uf =
      ({ s with contentBlockStarted := false,
                currentBlockType := (if s.contentBlockStarted then "" else s.currentBlockType),
                finished := true },
       (evs ++ (if s.contentBlockStarted then [contentBlockStopEvent s.contentBlockIndex] else []))
         ++ [messageDeltaEvent (mapFinishReason s.finishReason) uf, messageStopEvent]) := by
  unfold oaEmitTerminal
  rw [oaCloseBlock_eq]

/-- The first upstream chunk of spec scenario 3: text "hi" and
finish_reason "stop" in one chunk. -/
def c1Chunk : JVal :=
  .obj [("id", .str "c1"), ("model", .str "gpt-4"),
        ("choices", .arr [.obj [("delta", .obj [("content", .str "hi")]),
                                ("finish_reason", .str "stop")]])]

/-- C1: feeding the OpenAI-to-Anthropic stream machine, in its initial
state, the single chunk with id "c1", model "gpt-4", text delta "hi" and
finish_reason "stop" emits exactly six events in order: message_start,
content_block_start (index 0, text), content_block_delta (text_delta "hi"),
content_block_stop (index 0), message_delta (stop_reason "end_turn"),
message_stop. -/
theorem c1_openai_to_anthropic_stream_six_events :
    stepOA initOAState c1Chunk =
      some (⟨0, false, "", "stop", true, true⟩,
            [messageStartEvent "c1" "gpt-4" 0,
             contentBlockStartTextEvent 0,
             textDeltaEvent 0 "hi",
             contentBlockStopEvent 0,
             messageDeltaEvent "end_turn" [],
             messageStopEvent]) := by rfl

/-- C8: the latched finish_reason of the stream machine only transitions
from empty to non-empty: in every reachable state with a non-empty latch,
a further step never changes the latched value (and emits nothing, the
machine being finished). -/
theorem c8_finish_reason_latch_monotone (s : OAState) (data : JVal) (s' : OAState)
    (evs : List JVal) (hreach : OAReachable s) (hstep : stepOA s data = some (s', evs))
    (hfr : s.finishReason ≠ "") : s'.finishReason = s.finishReason ∧ evs = [] := by
  have hinv := oaReachable_inv s hreach
  have hfin := hinv.1 hfr
  have hstart := hinv.2 hfin
  have hnoop := stepOA_finished_noop s data hfin hstart
  rw [hstep] at hnoop
  injection hnoop with hnoop
  injection hnoop with h1 h2
  exact ⟨by rw [h1], h2⟩

/-- A reachable state with the latch set to "stop": the state after the C1
chunk. -/
def oaStateDone : OAState := ⟨0, false, "", "stop", true, true⟩

/-- A late chunk carrying a different finish reason. -/
def oaLateChunk : JVal := .obj [("choices", .arr [.obj [("finish_reason", .str "length")]])]

/-- Witness for C8: the reachable latched state keeps finish reason "stop"
when fed a chunk carrying finish_reason "length". -/
theorem c8_finish_reason_latch_monotone_witness :
    oaStateDone.finishReason ≠ "" ∧
    (stepOA oaStateDone oaLateChunk).map (fun r => r.1.finishReason) = some "stop" := by
  have h := c8_finish_reason_latch_monotone oaStateDone oaLateChunk oaStateDone []
    (OAReachable.step _ c1Chunk _ _ OAReachable.init rfl) rfl (by simp [oaStateDone])
  refine ⟨by simp [oaStateDone], ?_⟩
  rw [show stepOA oaStateDone oaLateChunk = some (oaStateDone, []) from rfl]
  rw [Option.map_some']
  rw [show (oaStateDone, ([] : List JVal)).1.finishReason = oaStateDone.finishReason from h.1]
  rfl

/-- The state after the empty-choices terminal step. -/
def oaTerminalStateOf (s : OAState) : OAState :=
  { s with startSent := true, contentBlockStarted := false,
           currentBlockType := (if s.contentBlockStarted then "" else s.currentBlockType),
           finished := true }

/-- C10: an unfinished machine with an empty latch, fed a chunk whose
choices member is an empty array, absent or not an array, terminates in
that step: it closes any open content block and emits message_delta with
stop_reason "end_turn" (the empty latch maps to "end_turn") followed by
message_stop, marks itself finished, and every later step returns the
same state and no events. -/
theorem c10_empty_choices_terminates_end_turn (s : OAState) (data : JVal)
    (hfin : s.finished = false) (hfr : s.finishReason = "")
    (hch : (match data.lookup "choices" with
            | some (.arr xs) => xs
            | _ => []) = ([] : List JVal)) :
    stepOA s data =
      some (oaTerminalStateOf s,
            ((if s.startSent = false then
                [messageStartEvent (jGetString data "id") (jGetString data "model")
                   (oaStartInputTokens data)]
              else []) ++
             (if s.contentBlockStarted then [contentBlockStopEvent s.contentBlockIndex] else []))
              ++ [messageDeltaEvent "end_turn" (oaFullUsageFields data), messageStopEvent]) ∧
    (∀ data', stepOA (oaTerminalStateOf s) data' = some (oaTerminalStateOf s, [])) := by
  constructor
  · unfold stepOA
    by_cases hss : s.startSent = false
    · simp only [hss]
      simp only [hch, hfin]
      rw [oaEmitTerminal_eq]
      unfold oaTerminalStateOf
      cases s
      simp_all [mapFinishReason]
    · simp only [hss]
      simp only [hch, hfin]
      rw [oaEmitTerminal_eq]
      unfold oaTerminalStateOf
      cases s
      simp_all [mapFinishReason]
  · intro data'
    exact stepOA_finished_noop _ data' rfl rfl

/-- Witness for C10: from the initial state, a chunk with only an id
terminates the stream with stop_reason "end_turn". -/
theorem c10_empty_choices_terminates_end_turn_witness :
    initOAState.finished = false ∧ initOAState.finishReason = "" ∧
    stepOA initOAState (JVal.obj [("id", .str "x")]) =
      some (oaTerminalStateOf initOAState,
            [messageStartEvent "x" "" 0,
             messageDeltaEvent "end_turn" [], messageStopEvent]) ∧
    stepOA (oaTerminalStateOf initOAState) (JVal.obj []) =
      some (oaTerminalStateOf initOAState, []) := by
  have h := c10_empty_choices_terminates_end_turn initOAState
    (JVal.obj [("id", .str "x")]) rfl rfl rfl
  refine ⟨rfl, rfl, ?_, h.2 (JVal.obj [])⟩
  rw [h.1]
  rfl

/-! Claim C9: spec scenario 4 requires the two id-less argument fragments
to be attached to the function_call item opened for id "call_x"; the code
instead synthesizes a fresh call id "call_N" from the next output index for
every id-less entry, so each fragment opens a brand-new function_call item
and its delta is attached there. -/

/-- Scenario 4, chunk 1: a tool call with id "call_x" and name "f". -/
def c9Chunk1 : ChatCompletionChunk :=
  ⟨"", "", [⟨0, none, some ⟨"", .null, "", [⟨"call_x", "", ⟨"f", ""⟩⟩], ""⟩, none⟩]⟩

/-- Scenario 4, chunk 2: an id-less argument fragment. -/
def c9Chunk2 : ChatCompletionChunk :=
  ⟨"", "", [⟨0, none, some ⟨"", .null, "", [⟨"", "", ⟨"", "\x7b\"a\":"⟩⟩], ""⟩, none⟩]⟩

/-- Scenario 4, chunk 3: the second id-less argument fragment. -/
def c9Chunk3 : ChatCompletionChunk :=
  ⟨"", "", [⟨0, none, some ⟨"", .null, "", [⟨"", "", ⟨"", "1\x7d"⟩⟩], ""⟩, none⟩]⟩

/-- C9: on the spec's streaming tool-call scenario the machine opens the
function_call item for "call_x" at output_index 1, but then attaches the
two argument fragments to freshly synthesized function_call items
"call_2" at output_index 2 and "call_3" at output_index 3 (with empty
names), not to the "call_x" item — the upstream fragments never reach the
item that carries the call id and name. -/
theorem c9_idless_fragments_open_new_items :
    stepChatToResponses 0 c9Chunk1 (initRespState "") =
      (⟨"resp_0", "", true, true, 2, [("call_x", 1)]⟩,
       [respCreatedEvent "resp_0" "", respMessageAddedEvent "resp_0",
        respContentPartAddedEvent, respFunctionItemAddedEvent 1 "call_x" "f"]) ∧
    stepChatToResponses 0 c9Chunk2 ⟨"resp_0", "", true, true, 2, [("call_x", 1)]⟩ =
      (⟨"resp_0", "", true, true, 3, [("call_x", 1), ("call_2", 2)]⟩,
       [respFunctionItemAddedEvent 2 "call_2" "", respArgsDeltaEvent 2 "\x7b\"a\":"]) ∧
    stepChatToResponses 0 c9Chunk3 ⟨"resp_0", "", true, true, 3, [("call_x", 1), ("call_2", 2)]⟩ =
      (⟨"resp_0", "", true, true, 4, [("call_x", 1), ("call_2", 2), ("call_3", 3)]⟩,
       [respFunctionItemAddedEvent 3 "call_3" "", respArgsDeltaEvent 3 "1\x7d"]) ∧
    (2 : Nat) ≠ 1 ∧ (3 : Nat) ≠ 1 :=
  ⟨rfl, rfl, rfl, by decide, by decide⟩

/-! Claim C2: the spec's tool-call finish-reason override, checked against
the two converters the claim cites, GeminiToOpenAIResponse and
AnthropicToOpenAIResponse.  Both map a recognized upstream finish reason
through the fixed table without consulting the converted content; of the
two, only GeminiToOpenAIResponse's unrecognized-finish-reason fallback
looks at the tool calls. -/

/-- A Gemini response body with finishReason "STOP" whose single part is a
functionCall. -/
def c2GeminiBody : JVal :=
  .obj [("candidates", .arr [.obj
    [("content", .obj [("parts", .arr [.obj [("functionCall", .obj
        [("name", .str "f"), ("args", .obj [])])]])]),
     ("finishReason", .str "STOP")]])]

/-- The converted output for `c2GeminiBody`: one tool call, finish reason
"stop". -/
def c2GeminiOut : ChatCompletionResponse :=
  ⟨"chatcmpl-0", "chat.completion", 0, "gpt-4",
   [⟨0, some ⟨"assistant", .null, "", [⟨"call_t_a", "function", ⟨"f", "\x7b\x7d"⟩⟩], ""⟩,
     none, some "stop"⟩], none⟩

/-- An Anthropic response body with a tool_use block and stop_reason
"end_turn". -/
def c2AnthBody : JVal :=
  .obj [("content", .arr [.obj [("type", .str "tool_use"), ("id", .str "t1"),
                                ("name", .str "calc"), ("input", .obj [])]]),
        ("stop_reason", .str "end_turn")]

/-- The converted output for `c2AnthBody`: one tool call, finish reason
"stop". -/
def c2AnthOut : ChatCompletionResponse :=
  ⟨"", "chat.completion", 0, "m",
   [⟨0, some ⟨"assistant", .null, "", [⟨"t1", "function", ⟨"calc", "\x7b\x7d"⟩⟩], ""⟩,
     none, some "stop"⟩], none⟩

/-- Counterexample to C2 as stated: the Gemini response with finishReason
"STOP" whose parts contain a functionCall converts to OpenAI finish_reason
"stop", and the Anthropic response with a tool_use block and stop_reason
"end_turn" also converts to "stop" — in both cases the output carries a
tool call yet the finish reason is not "tool_calls". -/
theorem c2_counterexample :
    GeminiToOpenAIResponse 0 0 "t" c2GeminiBody "gpt-4" = some c2GeminiOut ∧
    AnthropicToOpenAIResponse 0 c2AnthBody "m" = c2AnthOut ∧
    ("stop" : String) ≠ "tool_calls" :=
  ⟨rfl, rfl, by decide⟩

/-- C2 (amended): GeminiToOpenAIResponse and AnthropicToOpenAIResponse
derive the outbound finish reason from the upstream finish reason alone
through the fixed table, ignoring tool-call content for every recognized
upstream value: a Gemini body with finishReason "STOP" yields
finish_reason "stop" whatever its parts hold, and an Anthropic body with
stop_reason "end_turn" yields "stop" whatever its content holds.  (Of
these two converters, only Gemini's unrecognized-reason fallback consults
tool-call presence.) -/
theorem c2_finish_reason_ignores_tool_calls :
    (∀ (n u : Int) (ns model : String) (parts : List JVal)
       (candExtra topExtra : List (String × JVal)) (r : ChatCompletionResponse),
       GeminiToOpenAIResponse n u ns
           (.obj (("candidates",
                   .arr [.obj (("content", .obj [("parts", .arr parts)])
                               :: ("finishReason", .str "STOP") :: candExtra)])
                  :: topExtra))
           model = some r →
       r.choices.map Choice.finishReason = [some "stop"]) ∧
    (∀ (u : Int) (model : String) (resp : JVal),
       resp.lookup "stop_reason" = some (.str "end_turn") →
       (AnthropicToOpenAIResponse u resp model).choices.map Choice.finishReason
         = [some "stop"]) := by
  constructor
  · intro n u ns model parts candExtra topExtra r h
    unfold GeminiToOpenAIResponse at h
    simp only [JVal.lookup, lookupField, reduceIte] at h
    obtain ⟨text, tcs, hf⟩ | hf :
        (∃ a b, geminiFoldParts ns parts "" [] 0 = some (a, b)) ∨
          geminiFoldParts ns parts "" [] 0 = none := by
      cases hg : geminiFoldParts ns parts "" [] 0 with
      | none => exact Or.inr rfl
      | some p => exact Or.inl ⟨p.1, p.2, rfl⟩
    · rw [hf] at h
      simp only [] at h
      injection h with h
      rw [← h]
      simp only [JVal.lookup, lookupField, reduceIte]
      rfl
    · rw [hf] at h
      cases h
  · intro u model resp h
    unfold AnthropicToOpenAIResponse
    obtain ⟨text, tcs, he⟩ :
        ∃ a b, (match resp.lookup "content" with
                | some (.str s) => (s, ([] : List ToolCall))
                | some (.arr blocks) =>
                    blocks.foldl
                      (fun (acc : String × List ToolCall) block =>
                        match block with
                        | .obj bf =>
                            let blockMap : JVal := .obj bf
                            let blockType := jGetString blockMap "type"
                            if blockType = "text" then
                              (acc.1 ++ jGetString blockMap "text", acc.2)
                            else if blockType = "tool_use" then
                              let args :=
                                jsonStringify
                                  (match blockMap.lookup "input" with
                                   | some v => v
                                   | none => .null)
                              (acc.1,
                               acc.2 ++ [⟨jGetString blockMap "id", "function",
                                          ⟨jGetString blockMap "name", args⟩⟩])
                            else acc
                        | _ => acc)
                      ("", [])
                | _ => ("", [])) = (a, b) := ⟨_, _, rfl⟩
    rw [he, h]
    rfl

/-- Witness for the amended C2, at the two concrete bodies of the
counterexample. -/
theorem c2_finish_reason_ignores_tool_calls_witness :
    c2GeminiOut.choices.map Choice.finishReason = [some "stop"] ∧
    (AnthropicToOpenAIResponse 0 c2AnthBody "m").choices.map Choice.finishReason
      = [some "stop"] :=
  ⟨c2_finish_reason_ignores_tool_calls.1 0 0 "t" "gpt-4"
     [.obj [("functionCall", .obj [("name", .str "f"), ("args", .obj [])])]] [] []
     c2GeminiOut rfl,
   c2_finish_reason_ignores_tool_calls.2 0 "m" c2AnthBody rfl⟩

/-! Claim C3: system-message handling of the two lowering copies.  The
spec-side definitions below state the two candidate behaviors in the
spec's words, to be compared with the converters. -/

/-- The system string the spec describes: the concatenation, in original
message order, of the text contents of all system messages. -/
def systemConcatSpec (messages : List ChatMessage) : String :=
  (messages.filter (fun m => m.role == "system")).foldl
    (fun acc m => acc ++ getTextContent m.content) ""

/-- The competing behavior: only the last system message's text. -/
def lastSystemTextSpec (messages : List ChatMessage) : String :=
  (messages.filter (fun m => m.role == "system")).foldl
    (fun _ m => getTextContent m.content) ""

/-- A system message extends the accumulated system text (first copy). -/
theorem oaReqFoldStep_snd_system (acc : List AnthropicMessage × String) (m : ChatMessage)
    (h : m.role = "system") :
    (oaReqFoldStep acc m).2 = acc.2 ++ getTextContent m.content := by
  unfold oaReqFoldStep
  rw [if_pos h]

/-- A non-system message leaves the accumulated system text unchanged
(first copy). -/
theorem oaReqFoldStep_snd (acc : List AnthropicMessage × String) (m : ChatMessage)
    (h : ¬ m.role = "system") : (oaReqFoldStep acc m).2 = acc.2 := by
  unfold oaReqFoldStep
  rw [if_neg h]
  split <;> rfl

/-- The first copy's message fold accumulates exactly the system texts. -/
theorem oaReqFold_system (msgs : List ChatMessage) :
    ∀ (acc : List AnthropicMessage × String),
      (msgs.foldl oaReqFoldStep acc).2 =
        (msgs.filter (fun m => m.role == "system")).foldl
          (fun a m => a ++ getTextContent m.content) acc.2 := by
  induction msgs with
  | nil => intro acc; rfl
  | cons m rest ih =>
      intro acc
      simp only [List.foldl, List.filter_cons]
      by_cases hs : m.role = "system"
      · have hb : (m.role == "system") = true := by simpa using hs
        rw [hb]
        simp only [if_pos]
        rw [ih (oaReqFoldStep acc m), oaReqFoldStep_snd_system acc m hs]
        rfl
      · have hb : (m.role == "system") = false := by simpa using hs
        rw [hb]
        simp only [Bool.false_eq_true, if_false]
        rw [ih (oaReqFoldStep acc m), oaReqFoldStep_snd acc m hs]

/-- A system message overwrites the accumulated system text (second
copy). -/
theorem oaReqFoldStepV2_snd_system (acc : List AnthropicMessage × String) (m : ChatMessage)
    (h : m.role = "system") :
    (oaReqFoldStepV2 acc m).2 = getTextContent m.content := by
  unfold oaReqFoldStepV2
  rw [if_pos h]

/-- A non-system message leaves the accumulated system text unchanged
(second copy). -/
theorem oaReqFoldStepV2_snd (acc : List AnthropicMessage × String) (m : ChatMessage)
    (h : ¬ m.role = "system") : (oaReqFoldStepV2 acc m).2 = acc.2 := by
  unfold oaReqFoldStepV2
  rw [if_neg h]
  split <;> (try rfl) <;> (split <;> rfl)

/-- The second copy's message fold keeps only the last system text. -/
theorem oaReqFoldV2_system (msgs : List ChatMessage) :
    ∀ (acc : List AnthropicMessage × String),
      (msgs.foldl oaReqFoldStepV2 acc).2 =
        (msgs.filter (fun m => m.role == "system")).foldl
          (fun a m => getTextContent m.content) acc.2 := by
  induction msgs with
  | nil => intro acc; rfl
  | cons m rest ih =>
      intro acc
      simp only [List.foldl, List.filter_cons]
      by_cases hs : m.role = "system"
      · have hb : (m.role == "system") = true := by simpa using hs
        rw [hb]
        simp only [if_pos]
        rw [ih (oaReqFoldStepV2 acc m), oaReqFoldStepV2_snd_system acc m hs]
        rfl
      · have hb : (m.role == "system") = false := by simpa using hs
        rw [hb]
        simp only [Bool.false_eq_true, if_false]
        rw [ih (oaReqFoldStepV2 acc m), oaReqFoldStepV2_snd acc m hs]

/-- An OpenAI request with two system messages "a" and "b". -/
def c3req : ChatCompletionRequest :=
  ⟨"claude-3", [⟨"system", .str "a", "", [], ""⟩, ⟨"system", .str "b", "", [], ""⟩,
                ⟨"user", .str "hi", "", [], ""⟩], none, false, [], none⟩

/-- Counterexample to C3 as stated: the second visible lowering copy maps
the request with system messages "a" then "b" to the system string "b",
not the concatenation "ab" (which the first copy produces). -/
theorem c3_counterexample :
    (OpenAIToAnthropicRequestV2 c3req).system = "b" ∧
    systemConcatSpec c3req.messages = "ab" ∧
    (OpenAIToAnthropicRequest c3req).system = "ab" ∧
    ("b" : String) ≠ "ab" := ⟨rfl, rfl, rfl, by decide⟩

/-- C3 (amended): of the two visible OpenAI-to-Anthropic lowering copies,
the first produces the system string equal to the concatenation, in
original order, of the text contents of all system messages; the second
produces only the last system message's text. -/
theorem c3_system_concat_first_copy_last_second_copy (req : ChatCompletionRequest) :
    (OpenAIToAnthropicRequest req).system = systemConcatSpec req.messages ∧
    (OpenAIToAnthropicRequestV2 req).system = lastSystemTextSpec req.messages := by
  constructor
  · unfold OpenAIToAnthropicRequest systemConcatSpec
    obtain ⟨msgs, sys, hf⟩ : ∃ a b, req.messages.foldl oaReqFoldStep ([], "") = (a, b) :=
      ⟨_, _, rfl⟩
    rw [hf]
    dsimp only
    have hsys := oaReqFold_system req.messages ([], "")
    rw [hf] at hsys
    exact hsys
  · unfold OpenAIToAnthropicRequestV2 lastSystemTextSpec
    obtain ⟨msgs, sys, hf⟩ : ∃ a b, req.messages.foldl oaReqFoldStepV2 ([], "") = (a, b) :=
      ⟨_, _, rfl⟩
    rw [hf]
    dsimp only
    have hsys := oaReqFoldV2_system req.messages ([], "")
    rw [hf] at hsys
    exact hsys

/-! Claim C6: degradation of unparseable tool-call arguments.  The request
converter degrades to an empty object; the response converter leaves the
input at its nil zero value (serialized as null), not an empty object.
Neither converter aborts. -/

/-- An OpenAI response whose single tool call carries unparseable
arguments. -/
def c6resp : JVal :=
  .obj [("choices", .arr [.obj [("message", .obj
    [("tool_calls", .arr [.obj [("id", .str "t1"),
       ("function", .obj [("name", .str "f"), ("arguments", .str "not-json")])]])])]])]

/-- Counterexample to C6 as stated: on the response converter, a tool call
whose arguments string "not-json" fails to parse yields a tool_use block
whose input is null (the Go nil), not an empty JSON object. -/
theorem c6_counterexample :
    jsonParse "not-json" = none ∧
    OpenAIToAnthropicResponse c6resp "m" =
      some ⟨"", "message", "assistant",
            [⟨"tool_use", "", none, "t1", "f", .null, "", .null, false⟩], "m", none, ⟨0, 0⟩⟩ ∧
    (JVal.null ≠ JVal.obj []) :=
  ⟨rfl, rfl, fun h => JVal.noConfusion h⟩

/-- C6 (amended): a tool call whose JSON arguments fail to parse never
aborts conversion; the request converter produces a tool_use block with an
empty-object input, while the response converter produces one with a null
input. -/
theorem c6_unparseable_arguments_degrade (tc : ToolCall) (id name args : String)
    (hp : jsonParse tc.function.arguments = none) (hp2 : jsonParse args = none) :
    (OpenAIToAnthropicRequest
        ⟨"m", [⟨"assistant", .null, "", [tc], ""⟩], none, false, [], none⟩).messages
      = [⟨"assistant", .blocks [⟨"tool_use", "", none, tc.id, tc.function.name, .obj [], "",
                                 .null, false⟩]⟩] ∧
    OpenAIToAnthropicResponse
        (.obj [("choices", .arr [.obj [("message", .obj
           [("tool_calls", .arr [.obj [("id", .str id),
              ("function", .obj [("name", .str name), ("arguments", .str args)])]])])]])]) "m"
      = some ⟨"", "message", "assistant",
              [⟨"tool_use", "", none, id, name, .null, "", .null, false⟩], "m", none, ⟨0, 0⟩⟩ := by
  constructor
  · unfold OpenAIToAnthropicRequest
    dsimp only
    simp [oaReqFoldStep, extractOpenAIContentParts, toolUseBlockOfToolCall, hp]
  · unfold OpenAIToAnthropicResponse oaRespToolBlocks
    simp [JVal.lookup, lookupField, jGetMap, jGetString, oaRespBlocksOfContent, hp2]
    rfl

/-- Witness for the amended C6 at the concrete arguments "not-json". -/
theorem c6_unparseable_arguments_degrade_witness :
    jsonParse "not-json" = none ∧
    ((OpenAIToAnthropicRequest
        ⟨"m", [⟨"assistant", .null, "", [⟨"t1", "function", ⟨"f", "not-json"⟩⟩], ""⟩],
         none, false, [], none⟩).messages
      = [⟨"assistant", .blocks [⟨"tool_use", "", none, "t1", "f", .obj [], "",
                                 .null, false⟩]⟩]) :=
  ⟨rfl,
   (c6_unparseable_arguments_degrade ⟨"t1", "function", ⟨"f", "not-json"⟩⟩
      "t1" "f" "not-json" rfl rfl).1⟩

/-- The spec-side well-formedness of a tool schema: the input_schema is a
JSON object. -/
def SchemaIsObject (t : AnthropicTool) : Prop := ∃ fs, t.inputSchema = JVal.obj fs

/-- The spec-side acceptance condition of a tool_choice value, stated in
the validation rules' vocabulary: correct type tags, and for type "tool" a
non-empty name.  Membership of the name in the request's tool set appears
nowhere. -/
def ToolChoiceAccepted : AnthToolChoice → Prop
  | .auto t => t = "auto"
  | .any t => t = "any"
  | .tool t n => t = "tool" ∧ n ≠ ""
  | .fromMap m =>
      m.lookup "type" = some (.str "auto") ∨ m.lookup "type" = some (.str "any") ∨
      (m.lookup "type" = some (.str "tool") ∧ ∃ n, m.lookup "name" = some (.str n) ∧ n ≠ "")
  | .other => False

/-- Schema validation succeeds exactly on objects. -/
theorem validateInputSchema_none_iff (t : AnthropicTool) :
    ValidateInputSchema t = none ↔ SchemaIsObject t := by
  unfold ValidateInputSchema SchemaIsObject
  cases t.inputSchema <;> simp

/-- The tool loop succeeds exactly when every schema is an object. -/
theorem firstToolError_none_iff (ts : List AnthropicTool) :
    firstToolError ts = none ↔ ∀ t ∈ ts, SchemaIsObject t := by
  induction ts with
  | nil => simp [firstToolError]
  | cons t rest ih =>
      unfold firstToolError
      cases hv : ValidateInputSchema t with
      | some e =>
          constructor
          · intro h; exact Option.noConfusion h
          · intro h
            exfalso
            have hobj := h t (List.mem_cons_self t rest)
            have hnone := (validateInputSchema_none_iff t).2 hobj
            rw [hv] at hnone
            exact Option.noConfusion hnone
      | none =>
          have hs : SchemaIsObject t := (validateInputSchema_none_iff t).1 hv
          rw [ih]
          constructor
          · intro h x hx
            rcases List.mem_cons.1 hx with he | hmem
            · exact he ▸ hs
            · exact h x hmem
          · intro h x hx
            exact h x (List.mem_cons_of_mem t hx)

/-- Tool-choice validation succeeds exactly on accepted values. -/
theorem validateToolChoice_none_iff (tc : AnthToolChoice) :
    validateToolChoice tc = none ↔ ToolChoiceAccepted tc := by
  cases tc with
  | auto t =>
      by_cases h : t = "auto" <;> simp [validateToolChoice, ToolChoiceAccepted, h]
  | any t =>
      by_cases h : t = "any" <;> simp [validateToolChoice, ToolChoiceAccepted, h]
  | tool t n =>
      simp only [validateToolChoice, ToolChoiceAccepted]
      split_ifs with h1 h2 <;> simp_all
  | other => simp [validateToolChoice, ToolChoiceAccepted]
  | fromMap m =>
      simp only [validateToolChoice, ToolChoiceAccepted]
      cases hm : m.lookup "type" with
      | none => simp [hm]
      | some v =>
          cases v with
          | str t =>
              dsimp only
              by_cases ha : t = "auto" ∨ t = "any"
              · rw [if_pos ha]
                simp only [hm]
                rcases ha with h | h <;> simp [h]
              · rw [if_neg ha]
                by_cases ht : t = "tool"
                · rw [if_pos ht]
                  subst ht
                  cases hn : m.lookup "name" with
                  | none => simp [hm, hn]
                  | some w =>
                      cases w with
                      | str n =>
                          by_cases hne : n = ""
                          · simp [hm, hn, hne]
                          · simp [hm, hn, hne]
                      | null => simp [hm, hn]
                      | bool b => simp [hm, hn]
                      | num x => simp [hm, hn]
                      | arr a => simp [hm, hn]
                      | obj o => simp [hm, hn]
                · rw [if_neg ht]
                  constructor
                  · intro h
                    exact Option.noConfusion h
                  · intro h
                    exfalso
                    rcases h with h | h | ⟨h, _⟩ <;>
                      simp only [Option.some.injEq, JVal.str.injEq] at h
                    · exact ha (Or.inl h)
                    · exact ha (Or.inr h)
                    · exact ht h
          | null => simp [hm]
          | bool b => simp [hm]
          | num x => simp [hm]
          | arr a => simp [hm]
          | obj o => simp [hm]


/-- C7 (amended): Validate accepts a request exactly when the model is
non-empty, max_tokens is positive, every tool's input_schema is an object,
and any tool_choice is well formed (type tag correct; type "tool" carries
a non-empty name).  In particular no case inspects whether a tool_choice
name occurs in the request's tool set. -/
theorem c7_validate_characterization (r : MessagesRequest) :
    Validate r = none ↔
      (r.model ≠ "" ∧ 0 < r.maxTokens ∧ (∀ t ∈ r.tools, SchemaIsObject t) ∧
       (∀ tc, r.toolChoice = some tc → ToolChoiceAccepted tc)) := by
  unfold Validate
  by_cases hm : r.model = ""
  · simp [hm]
  · rw [if_neg hm]
    by_cases hmt : r.maxTokens ≤ 0
    · rw [if_pos hmt]
      constructor
      · intro h; exact Option.noConfusion h
      · intro h
        exfalso
        have := h.2.1
        omega
    · rw [if_neg hmt]
      cases hf : firstToolError r.tools with
      | some e =>
          constructor
          · intro h; exact Option.noConfusion h
          · intro h
            exfalso
            have hnone := (firstToolError_none_iff r.tools).2 h.2.2.1
            rw [hf] at hnone
            exact Option.noConfusion hnone
      | none =>
          have hts := (firstToolError_none_iff r.tools).1 hf
          cases htc : r.toolChoice with
          | none =>
              constructor
              · intro _
                refine ⟨hm, by omega, hts, ?_⟩
                intro tc' htc'
                exact Option.noConfusion htc'
              · intro _
                rfl
          | some tc =>
              dsimp only
              cases hv : validateToolChoice tc with
              | some e =>
                  constructor
                  · intro h; exact Option.noConfusion h
                  · intro h
                    exfalso
                    have hacc := h.2.2.2 tc rfl
                    have hnone := (validateToolChoice_none_iff tc).2 hacc
                    rw [hv] at hnone
                    exact Option.noConfusion hnone
              | none =>
                  have hacc := (validateToolChoice_none_iff tc).1 hv
                  constructor
                  · intro _
                    refine ⟨hm, by omega, hts, ?_⟩
                    intro tc' htc'
                    injection htc' with htc'
                    exact htc' ▸ hacc
                  · intro _
                    rfl

/-- A valid-by-the-code request whose tool_choice names tool "b" while the
tool set only contains "a". -/
def c7req : MessagesRequest :=
  ⟨"m", 1, "", [], [⟨"a", "", .obj []⟩], some (.tool "tool" "b"), false⟩

/-- Counterexample to C7 as stated: Validate accepts the request whose
tool_choice of type "tool" names "b", a tool absent from the tools array
(whose only name is "a"). -/
theorem c7_counterexample :
    Validate c7req = none ∧
    c7req.toolChoice = some (.tool "tool" "b") ∧
    c7req.tools.map AnthropicTool.name = ["a"] ∧
    ¬ ("b" ∈ ["a"]) := ⟨rfl, rfl, rfl, by decide⟩

/-! Claims C4 and C5: the provider resolver.  The scan lemmas characterize
the loop of resolveProviderForAPIKey; the main theorems settle the model
rewrite (C4) and show that an unmatched model is served by the first
active configuration, not by the built-in prefix classifier (C5). -/

/-- A matched scan result carries the requested model unchanged and a
configuration whose model codes contain it. -/
theorem resolveScan_inl_spec (model : String) (cfgs : List ProviderConfig) :
    ∀ (fa : Option ProviderConfig) (r : ResolvedProvider),
      resolveScan model cfgs fa = .inl r →
      r.model = model ∧ r.matched = true ∧
      ∃ codes, r.config.modelCodes = some codes ∧ model ∈ codes := by
  induction cfgs with
  | nil => intro fa r h; cases h
  | cons cfg rest ih =>
      intro fa r h
      unfold resolveScan at h
      split at h
      · exact ih _ r h
      · dsimp only at h
        split at h
        · exact ih _ r h
        · rename_i codes hmc
          split at h
          · rename_i hin
            injection h with h
            rw [← h]
            exact ⟨rfl, rfl, codes, hmc, hin⟩
          · exact ih _ r h

/-- When no active configuration's codes contain the model, the scan falls
through to the tracked first-active configuration (the first active entry
of the list when none was tracked yet). -/
theorem resolveScan_no_match (model : String) :
    ∀ (cfgs : List ProviderConfig),
      (∀ cfg ∈ cfgs, cfg.isActive = true →
         ∀ codes, cfg.modelCodes = some codes → model ∉ codes) →
      ∀ (fa : Option ProviderConfig),
        resolveScan model cfgs fa =
          .inr (match fa with
                | some c => some c
                | none => cfgs.find? (fun c => c.isActive)) := by
  intro cfgs
  induction cfgs with
  | nil =>
      intro _ fa
      cases fa <;> rfl
  | cons cfg rest ih =>
      intro hnm fa
      have hnmr : ∀ c ∈ rest, c.isActive = true →
          ∀ codes, c.modelCodes = some codes → model ∉ codes :=
        fun c hc => hnm c (List.mem_cons_of_mem cfg hc)
      unfold resolveScan
      by_cases ha : cfg.isActive = false
      · rw [if_pos ha]
        rw [ih hnmr fa]
        cases fa with
        | some c => rfl
        | none =>
            have hne : cfg.isActive ≠ true := by rw [ha]; exact Bool.false_ne_true
            rw [List.find?_cons_of_neg _ (by simpa using hne)]
      · rw [if_neg ha]
        have hact : cfg.isActive = true := by
          cases hcc : cfg.isActive with
          | true => rfl
          | false => exact absurd hcc ha
        dsimp only
        cases hmc : cfg.modelCodes with
        | none =>
            dsimp only
            rw [ih hnmr _]
            cases fa with
            | some c => rfl
            | none =>
                rw [List.find?_cons_of_pos _ (by simpa using hact)]
        | some codes =>
            dsimp only
            have hnin : model ∉ codes := hnm cfg (List.mem_cons_self cfg rest) hact codes hmc
            rw [if_neg hnin]
            rw [ih hnmr _]
            cases fa with
            | some c => rfl
            | none =>
                rw [List.find?_cons_of_pos _ (by simpa using hact)]

/-- If some active configuration's codes contain the model, the scan
returns a matched result. -/
theorem resolveScan_match_found (model : String) :
    ∀ (cfgs : List ProviderConfig) (fa : Option ProviderConfig),
      (∃ cfg, cfg ∈ cfgs ∧ cfg.isActive = true ∧
        ∃ codes, cfg.modelCodes = some codes ∧ model ∈ codes) →
      ∃ r, resolveScan model cfgs fa = Sum.inl r := by
  intro cfgs
  induction cfgs with
  | nil =>
      intro fa hex
      rcases hex with ⟨cfg, hmem, _⟩
      cases hmem
  | cons cfg rest ih =>
      intro fa hex
      unfold resolveScan
      by_cases ha : cfg.isActive = false
      · rw [if_pos ha]
        apply ih
        rcases hex with ⟨c, hmem, hact, hc⟩
        rcases List.mem_cons.1 hmem with he | hm
        · subst he
          rw [hact] at ha
          cases ha
        · exact ⟨c, hm, hact, hc⟩
      · rw [if_neg ha]
        dsimp only
        rcases hex with ⟨c, hmem, hact, codes, hmc, hin⟩
        rcases List.mem_cons.1 hmem with he | hm
        · subst he
          rw [hmc]
          dsimp only
          rw [if_pos hin]
          exact ⟨_, rfl⟩
        · cases hmc2 : cfg.modelCodes with
          | none =>
              dsimp only
              exact ih _ ⟨c, hm, hact, codes, hmc, hin⟩
          | some codes2 =>
              dsimp only
              by_cases hin2 : model ∈ codes2
              · rw [if_pos hin2]
                exact ⟨_, rfl⟩
              · rw [if_neg hin2]
                exact ih _ ⟨c, hm, hact, codes, hmc, hin⟩

/-- C4: whenever the resolver succeeds, the resolved model is either the
client-supplied model or the first entry of the chosen configuration's
model codes, never anything else; and when some active configuration's
model codes contain the requested model, the resolved model is the
unchanged requested model. -/
theorem c4_resolved_model_origin (k : APIKey) (model : String) (r : ResolvedProvider)
    (h : resolveProviderForAPIKey (some k) model = .ok (some r)) :
    (r.model = model ∨ ∃ c rest, r.config.modelCodes = some (c :: rest) ∧ r.model = c) ∧
    ((∃ cfg, cfg ∈ k.providerConfigs ∧ cfg.isActive = true ∧
        ∃ codes, cfg.modelCodes = some codes ∧ model ∈ codes) → r.model = model) := by
  unfold resolveProviderForAPIKey at h
  dsimp only at h
  split at h
  · cases h
  · split at h
    · rename_i r0 hscan
      injection h with h
      injection h with h
      rw [← h]
      have hs := resolveScan_inl_spec model k.providerConfigs none r0 hscan
      exact ⟨Or.inl hs.1, fun _ => hs.1⟩
    · cases h
    · rename_i fa hscan
      injection h with h
      injection h with h
      constructor
      · cases hmc : fa.modelCodes with
        | none =>
            rw [hmc] at h
            rw [← h]
            exact Or.inl rfl
        | some codes =>
            cases codes with
            | nil =>
                rw [hmc] at h
                rw [← h]
                exact Or.inl rfl
            | cons c cs =>
                rw [hmc] at h
                rw [← h]
                exact Or.inr ⟨c, cs, hmc, rfl⟩
      · intro hex
        exfalso
        obtain ⟨r1, hr1⟩ := resolveScan_match_found model k.providerConfigs none hex
        rw [hr1] at hscan
        cases hscan

/-- An active gemini configuration, first in insertion order. -/
def cfgGemEx : ProviderConfig := ⟨"gemini", true, false, some ["my-gem"]⟩

/-- An active anthropic configuration marked default, second in order. -/
def cfgClaudeEx : ProviderConfig := ⟨"anthropic", true, true, some ["claude-3"]⟩

/-- Witness for C4: the model "claude-3" matches the second configuration
and is returned unchanged. -/
theorem c4_resolved_model_origin_witness :
    resolveProviderForAPIKey (some ⟨[cfgGemEx, cfgClaudeEx]⟩) "claude-3" =
      .ok (some ⟨"anthropic", "claude-3", cfgClaudeEx, true⟩) ∧
    (⟨"anthropic", "claude-3", cfgClaudeEx, true⟩ : ResolvedProvider).model = "claude-3" := by
  refine ⟨rfl, ?_⟩
  have h := c4_resolved_model_origin ⟨[cfgGemEx, cfgClaudeEx]⟩ "claude-3"
    ⟨"anthropic", "claude-3", cfgClaudeEx, true⟩ rfl
  exact h.2 ⟨cfgClaudeEx, by simp [cfgGemEx, cfgClaudeEx], rfl,
             ["claude-3"], rfl, by simp⟩

/-- Counterexample to C5 as stated: for the caller whose active
configurations are the gemini one (first) and the default anthropic one,
the unmatched model "claude-opus-4" — which the prefix classifier maps to
"anthropic" — resolves to the FIRST active configuration (gemini), with
the model rewritten to "my-gem"; the prefix step is never reached. -/
theorem c5_counterexample :
    resolveProviderForAPIKey (some ⟨[cfgGemEx, cfgClaudeEx]⟩) "claude-opus-4" =
      .ok (some ⟨"gemini", "my-gem", cfgGemEx, false⟩) ∧
    getTargetProvider "claude-opus-4" = "anthropic" ∧
    anthropicResolveTarget (some ⟨[cfgGemEx, cfgClaudeEx]⟩) "claude-opus-4" =
      .ok ("gemini", "my-gem") ∧
    ("gemini" : String) ≠ "anthropic" ∧ ("my-gem" : String) ≠ "claude-opus-4" :=
  ⟨rfl, by decide, rfl, by decide, by decide⟩

/-- C5 (amended): when the caller's API-key resolver succeeds and no
active configuration lists the requested model, the result is always the
unmatched first-active-configuration fallback — its model rewritten to the
configuration's first model code when one exists — whatever the model's
prefix; and as long as that configuration carries a non-empty provider
string, the handler uses it directly, never consulting the prefix
classifier. -/
theorem c5_unmatched_first_active_fallback (k : APIKey) (model : String) (r : ResolvedProvider)
    (h : resolveProviderForAPIKey (some k) model = .ok (some r))
    (hnm : ∀ cfg ∈ k.providerConfigs, cfg.isActive = true →
             ∀ codes, cfg.modelCodes = some codes → model ∉ codes) :
    r.matched = false ∧
    k.providerConfigs.find? (fun c => c.isActive) = some r.config ∧
    (match r.config.modelCodes with
     | some (c :: _) => r.model = c
     | _ => r.model = model) ∧
    (r.provider ≠ "" → anthropicResolveTarget (some k) model = .ok (r.provider, r.model)) := by
  have hmain : r.matched = false ∧
      k.providerConfigs.find? (fun c => c.isActive) = some r.config ∧
      (match r.config.modelCodes with
       | some (c :: _) => r.model = c
       | _ => r.model = model) := by
    unfold resolveProviderForAPIKey at h
    dsimp only at h
    split at h
    · cases h
    · rw [resolveScan_no_match model k.providerConfigs hnm none] at h
      cases hfind : List.find? (fun c => c.isActive) k.providerConfigs with
      | none =>
          rw [hfind] at h
          cases h
      | some fa =>
          rw [hfind] at h
          dsimp only at h
          injection h with h
          injection h with h
          refine ⟨by rw [← h], by rw [← h], ?_⟩
          cases hmc : fa.modelCodes with
          | none => rw [hmc] at h; rw [← h]; simp [hmc]
          | some codes =>
              cases codes with
              | nil => rw [hmc] at h; rw [← h]; simp [hmc]
              | cons c cs => rw [hmc] at h; rw [← h]; simp [hmc]
  refine ⟨hmain.1, hmain.2.1, hmain.2.2, ?_⟩
  intro hp
  unfold anthropicResolveTarget
  rw [h]
  dsimp only
  rw [if_neg hp]
  rw [if_neg hp]

/-- Witness for the amended C5, at the counterexample's configurations. -/
theorem c5_unmatched_first_active_fallback_witness :
    resolveProviderForAPIKey (some ⟨[cfgGemEx, cfgClaudeEx]⟩) "claude-opus-4" =
      .ok (some ⟨"gemini", "my-gem", cfgGemEx, false⟩) ∧
    List.find? (fun c => c.isActive) [cfgGemEx, cfgClaudeEx] = some cfgGemEx := by
  refine ⟨rfl, ?_⟩
  have h := c5_unmatched_first_active_fallback ⟨[cfgGemEx, cfgClaudeEx]⟩ "claude-opus-4"
    ⟨"gemini", "my-gem", cfgGemEx, false⟩ rfl
    (by
      intro cfg hc hact codes hcodes
      simp [cfgGemEx, cfgClaudeEx] at hc
      rcases hc with h1 | h2
      · subst h1
        simp [cfgGemEx] at hcodes
        subst hcodes
        simp
      · subst h2
        simp [cfgClaudeEx] at hcodes
        subst hcodes
        simp)
  exact h.2.1

end AIGateway
